import Mathlib

/-!
Shallow embedding of the signal-detection-and-simulation engine of the
algotest repository (backend/app/services/strategy.py and
backend/app/services/strategy/{risk_manager,volume_analyzer,price_analyzer,
signal_combiner}.py), together with proofs settling the frozen claims
C1..C10 about it.

Modelling conventions, used uniformly below:
* Python floats are modelled as rationals (ℚ).
* pandas series cells that can be NaN (rolling windows shorter than the
  window size, pct_change at index 0, division by zero) are modelled as
  `Option ℚ` with `none` for NaN; every comparison against `none` is
  `false`, exactly as every comparison against NaN is `False` in pandas.
  Division by zero yields `none`; in the places reached by the theorems
  below the numerator is zero in that case, where pandas also yields NaN.
* `datetime` timestamps are integers (seconds); `timedelta` arithmetic
  becomes integer arithmetic.
* A standard-deviation value is `sqrtQ` of the sample variance.  `sqrtQ`
  is the exact square root on perfect-square rationals (every theorem
  below only evaluates it at variance 0 of constant windows, where it is
  exact).  A standard-deviation *comparison* `std < t` is encoded exactly
  as `0 < t ∧ var < t^2`, which is equivalent over the reals since both
  std and var are nonnegative.
* Python dicts used as signal records are modelled by the structure
  `SignalData`; a key that a given producer never sets is an `Option`
  field left `none`, and `.get(k, d)` becomes `Option.getD`.  The
  free-form `metadata` sub-dict is carried nowhere into any decision and
  is omitted.
* Dataframe columns that no signal decision ever reads
  (volume_ema/ewm columns, volume_momentum, momentum_ma, atr,
  doji/hammer/shooting_star, trend_direction, high_low_range) are omitted.
* `datetime.now()` (used only for the trade id in
  RiskManager.create_trade and for execution_time) is modelled by an
  explicit clock `ℕ → ℤ` giving the instant observed by the n-th trade
  creation; execution_time is not modelled.
* pydantic field validation on `Trade` (prices and size strictly
  positive) raises inside create_trade, which catches every exception and
  returns None; this is modelled by the final positivity guard in
  `create_trade`.
-/

namespace Algotest

/-- Truncated division of integers, as Python `int()` applied to a float
quotient truncates toward zero. -/
def tdivZ (a b : ℤ) : ℤ := Int.tdiv a b

/-- Division with a zero-denominator guard: models a pandas division whose
NaN/inf result only ever feeds comparisons (false against NaN). -/
def qdiv (a b : ℚ) : Option ℚ := if b = 0 then none else some (a / b)

/-- Exact square root on perfect-square rationals (0, 1, 4, 9/4, ...).
Every use below is at a perfect-square argument. -/
def sqrtQ (q : ℚ) : ℚ := (Nat.sqrt q.num.toNat : ℚ) / (Nat.sqrt q.den : ℚ)

/-- Mean of a list of rationals (callers guarantee nonemptiness). -/
def listMean (l : List ℚ) : ℚ := l.sum / (l.length : ℚ)

/-- Maximum of a list, 0 on the empty list (callers guarantee nonemptiness). -/
def listMax : List ℚ → ℚ
  | [] => 0
  | x :: xs => xs.foldl max x

/-- Minimum of a list, 0 on the empty list (callers guarantee nonemptiness). -/
def listMin : List ℚ → ℚ
  | [] => 0
  | x :: xs => xs.foldl min x

/-- Sample variance (pandas `.std()**2`, ddof = 1); callers only use it on
lists of length ≥ 2. -/
def sampleVar (l : List ℚ) : ℚ :=
  ((l.map (fun x => (x - listMean l) ^ 2)).sum) / ((l.length : ℚ) - 1)

/-- Population variance (numpy `.std()**2`, ddof = 0). -/
def popVar (l : List ℚ) : ℚ :=
  ((l.map (fun x => (x - listMean l) ^ 2)).sum) / (l.length : ℚ)

/-- Turn a list of optional values into an optional list (`none` if any
entry is `none`): models a rolling window that needs every cell non-NaN. -/
def seqOpt : List (Option ℚ) → Option (List ℚ)
  | [] => some []
  | o :: rest => o.bind (fun x => (seqOpt rest).map (fun l => x :: l))

/-- The values under a width-`w` rolling window ending at index `i` of the
series `g` (indices `i+1-w` … `i`). -/
def rwinF (g : ℕ → ℚ) (w i : ℕ) : List ℚ :=
  (List.range w).map (fun k => g (i + 1 - w + k))

/-- Rolling window over an Option-valued (NaN-able) series. -/
def rwinFO (g : ℕ → Option ℚ) (w i : ℕ) : Option (List ℚ) :=
  seqOpt ((List.range w).map (fun k => g (i + 1 - w + k)))

/-- Comparison `a > b` where either side may be NaN (false then). -/
def oGT : Option ℚ → Option ℚ → Bool
  | some a, some b => decide (b < a)
  | _, _ => false

/-- Comparison `a ≥ b` where either side may be NaN (false then). -/
def oGE : Option ℚ → Option ℚ → Bool
  | some a, some b => decide (b ≤ a)
  | _, _ => false

/-- Comparison `a < b` where either side may be NaN (false then). -/
def oLT (a b : Option ℚ) : Bool := oGT b a

/-- The comparison `std < t` for an optional variance `v` (NaN → false):
encoded on variances, exactly equivalent since `std = √v ≥ 0`. -/
def stdLT : Option ℚ → ℚ → Bool
  | some v, t => decide (0 < t ∧ v < t ^ 2)
  | none, _ => false

/-- OHLCV candle (models.backtest.CandleData); the `open` price field is
called `open_price` because `open` is a Lean keyword. -/
structure Candle where
  timestamp : ℤ
  open_price : ℚ
  high : ℚ
  low : ℚ
  close : ℚ
  volume : ℚ
  deriving DecidableEq, Repr

/-- models.backtest.TradeDirection. -/
inductive TradeDirection where
  | long
  | short
  deriving DecidableEq, Repr

/-- models.backtest.ExitReason. -/
inductive ExitReason where
  | take_profit
  | stop_loss
  | manual
  | timeout
  deriving DecidableEq, Repr

/-- models.backtest.Trade.  The id is the integer wall-clock timestamp the
source embeds in the string "trade_<now>".  Optional fields are unset at
creation and filled when the trade closes.  max_favorable / max_adverse
are never assigned anywhere in the code and are omitted. -/
structure Trade where
  id : ℤ
  entry_time : ℤ
  direction : TradeDirection
  entry_price : ℚ
  size : ℚ
  take_profit : ℚ
  stop_loss : ℚ
  exit_time : Option ℤ := none
  exit_price : Option ℚ := none
  pnl : Option ℚ := none
  exit_reason : Option ExitReason := none
  duration_minutes : Option ℤ := none
  deriving DecidableEq, Repr

/-- A signal dict.  Producers set different key subsets: keys a producer
may leave absent are Option fields (absent = none).  `stype` is the
dict's "type" key. -/
structure SignalData where
  timestamp : ℤ
  stype : String
  direction : Option String := none
  strength : ℚ := 0
  confidence : ℚ := 0
  volume_ratio : Option ℚ := none
  volume_change_pct : Option ℚ := none
  volume_trend : Option ℚ := none
  price_change_pct : Option ℚ := none
  momentum : Option ℚ := none
  volume_score : Option ℚ := none
  price_score : Option ℚ := none
  momentum_score : Option ℚ := none
  quality_score : Option ℚ := none
  deriving DecidableEq, Repr

/-- The constructor-config dict shared by all components, with each
component's `config.get(key, default)` defaults. -/
structure Config where
  lookback_period : ℕ := 20
  volume_threshold : ℚ := 3 / 2
  min_price_change : ℚ := 1 / 200
  short_period : ℕ := 5
  long_period : ℕ := 20
  momentum_period : ℕ := 10
  take_profit : ℚ := 1 / 50
  stop_loss : ℚ := 1 / 100
  max_position_size : ℚ := 1 / 10
  risk_per_trade : ℚ := 1 / 50
  volume_weight : ℚ := 2 / 5
  price_weight : ℚ := 2 / 5
  momentum_weight : ℚ := 1 / 5
  min_combined_score : ℚ := 1 / 2
  signal_timeout : ℤ := 300
  deriving DecidableEq, Repr

/-- The fields of models.strategy.StrategyParams that the simulation loop
and the detect_signals guard read. -/
structure Params where
  lookback_period : ℕ := 20
  max_trades : ℕ := 100
  initial_capital : ℚ := 10000
  deriving DecidableEq, Repr

/-! ## RiskManager (services/strategy/risk_manager.py) -/

/-- RiskManager._calculate_signal_quality (risk_manager.py:248). -/
def calculate_signal_quality (sig : SignalData) : ℚ :=
  let q0 := sig.strength * (2 / 5) + sig.confidence * (3 / 10)
  let q1 := q0 +
    (if sig.stype = "volume_spike" then
      (if oGT sig.volume_ratio (some 2) then (1 : ℚ) / 5
       else if oGT sig.volume_ratio (some (3 / 2)) then 1 / 10
       else 0)
     else 0)
  let q2 := q1 + (if 1 / 100 < |sig.momentum.getD 0| then (1 : ℚ) / 10 else 0)
  min q2 1

/-- RiskManager._apply_risk_management (risk_manager.py:160): attaches the
quality score and drops signals scoring below 0.3.  (The risk-parameter
keys it also attaches are never read downstream and are not modelled.) -/
def apply_risk_management (sig : SignalData) : Option SignalData :=
  let q := calculate_signal_quality sig
  if q < 3 / 10 then none
  else some { sig with quality_score := some q }

/-- RiskManager._validate_risk_criteria (risk_manager.py:182). -/
def validate_risk_criteria (sig : SignalData) : Bool :=
  ¬(sig.quality_score.getD 0 < 3 / 10) ∧
  ¬(sig.strength < 3 / 10) ∧
  ¬(sig.confidence < 1 / 5)

/-- RiskManager.filter_signals (risk_manager.py:31); its candles argument
is never read.  -/
def filter_signals (signals : List SignalData) : List SignalData :=
  signals.filterMap (fun s =>
    match apply_risk_management s with
    | none => none
    | some s1 => if validate_risk_criteria s1 then some s1 else none)

/-- RiskManager._calculate_volatility_adjustment (risk_manager.py:278);
close = 0 raises ZeroDivisionError, caught to return 1.0. -/
def calculate_volatility_adjustment (candle : Candle) : ℚ :=
  if candle.close = 0 then 1
  else
    let pr := (candle.high - candle.low) / candle.close
    if 1 / 20 < pr then 1 / 2
    else if 3 / 100 < pr then 7 / 10
    else if 1 / 50 < pr then 4 / 5
    else 1

/-- RiskManager._calculate_position_size (risk_manager.py:203). -/
def calculate_position_size (cfg : Config) (sig : SignalData) (candle : Candle)
    (available_capital : ℚ) : ℚ :=
  let base_size := available_capital * cfg.max_position_size
  let adjusted := base_size * sig.quality_score.getD (1 / 2)
  let final_size := adjusted * calculate_volatility_adjustment candle
  max (available_capital * (1 / 100)) (min final_size (available_capital * cfg.max_position_size))

/-- RiskManager._calculate_stop_loss (risk_manager.py:227). -/
def calculate_stop_loss (cfg : Config) (entry_price : ℚ) (direction : String) : ℚ :=
  if direction = "long" then entry_price * (1 - cfg.stop_loss)
  else entry_price * (1 + cfg.stop_loss)

/-- RiskManager._calculate_take_profit (risk_manager.py:234). -/
def calculate_take_profit (cfg : Config) (entry_price : ℚ) (direction : String) : ℚ :=
  if direction = "long" then entry_price * (1 + cfg.take_profit)
  else entry_price * (1 - cfg.take_profit)

/-- RiskManager._calculate_pnl (risk_manager.py:241). -/
def calculate_pnl (trade : Trade) (exit_price : ℚ) : ℚ :=
  if trade.direction = TradeDirection.long then
    trade.size * (exit_price - trade.entry_price) / trade.entry_price
  else
    trade.size * (trade.entry_price - exit_price) / trade.entry_price

/-- RiskManager.create_trade (risk_manager.py:62).  `now` is the integer
timestamp `datetime.now()` yields for the trade id.  A signal without a
"direction" key raises KeyError, and non-positive prices or size fail
pydantic validation; create_trade catches both and returns None. -/
def create_trade (cfg : Config) (sig : SignalData) (current_candle : Candle)
    (available_capital : ℚ) (now : ℤ) : Option Trade :=
  let position_size := calculate_position_size cfg sig current_candle available_capital
  if position_size ≤ 0 then none
  else
    match sig.direction with
    | none => none
    | some d =>
      let entry_price := current_candle.close
      let sl := calculate_stop_loss cfg entry_price d
      let tp := calculate_take_profit cfg entry_price d
      if 0 < entry_price ∧ 0 < position_size ∧ 0 < tp ∧ 0 < sl then
        some { id := now
               entry_time := current_candle.timestamp
               direction := if d = "long" then TradeDirection.long else TradeDirection.short
               entry_price := entry_price
               size := position_size
               take_profit := tp
               stop_loss := sl }
      else none

/-- The exit record returned by check_exit_conditions (its `should_exit`
key is always True and is represented by the record being `some`). -/
structure ExitInfo where
  exit_price : ℚ
  exit_reason : ExitReason
  pnl : ℚ
  deriving DecidableEq, Repr

/-- RiskManager.check_exit_conditions (risk_manager.py:106): take-profit
branches first, then stop-loss. -/
def check_exit_conditions (trade : Trade) (current_candle : Candle) : Option ExitInfo :=
  let current_price := current_candle.close
  if trade.direction = TradeDirection.long ∧ trade.take_profit ≤ current_price then
    some { exit_price := trade.take_profit, exit_reason := ExitReason.take_profit
           pnl := calculate_pnl trade trade.take_profit }
  else if trade.direction = TradeDirection.short ∧ current_price ≤ trade.take_profit then
    some { exit_price := trade.take_profit, exit_reason := ExitReason.take_profit
           pnl := calculate_pnl trade trade.take_profit }
  else if trade.direction = TradeDirection.long ∧ current_price ≤ trade.stop_loss then
    some { exit_price := trade.stop_loss, exit_reason := ExitReason.stop_loss
           pnl := calculate_pnl trade trade.stop_loss }
  else if trade.direction = TradeDirection.short ∧ trade.stop_loss ≤ current_price then
    some { exit_price := trade.stop_loss, exit_reason := ExitReason.stop_loss
           pnl := calculate_pnl trade trade.stop_loss }
  else none

/-! ## VolumeAnalyzer (services/strategy/volume_analyzer.py)

The dataframe columns are modelled as functions of the bar index `i` over
the candle list; `n` below abbreviates `candles.length`.  A rolling
statistic over window `w` is NaN (`none`) until `w` cells are available,
as with pandas' default `min_periods`. -/

/-- The volume at bar `i` (dummy 0 beyond the end; every use has i < n). -/
def volumeAt (candles : List Candle) (i : ℕ) : ℚ :=
  ((candles.getD i { timestamp := 0, open_price := 0, high := 0, low := 0,
                     close := 0, volume := 0 }).volume)

/-- The timestamp of bar `i`. -/
def tsAt (candles : List Candle) (i : ℕ) : ℤ :=
  ((candles.getD i { timestamp := 0, open_price := 0, high := 0, low := 0,
                     close := 0, volume := 0 }).timestamp)

/-- Column volume_sma: rolling mean of volume (volume_analyzer.py:82). -/
def volume_sma (cfg : Config) (candles : List Candle) (i : ℕ) : Option ℚ :=
  if 1 ≤ cfg.lookback_period ∧ cfg.lookback_period ≤ i + 1 ∧ i < candles.length then
    some (listMean (rwinF (volumeAt candles) cfg.lookback_period i))
  else none

/-- Column volume_ratio = volume / volume_sma (volume_analyzer.py:86). -/
def volume_ratio (cfg : Config) (candles : List Candle) (i : ℕ) : Option ℚ :=
  (volume_sma cfg candles i).bind (fun m => qdiv (volumeAt candles i) m)

/-- Column volume_change_pct = volume.pct_change() (volume_analyzer.py:89). -/
def volume_change_pct (candles : List Candle) (i : ℕ) : Option ℚ :=
  if i = 0 ∨ candles.length ≤ i then none
  else qdiv (volumeAt candles i - volumeAt candles (i - 1)) (volumeAt candles (i - 1))

/-- The sample variance under the rolling std of volume
(volume_analyzer.py:92); the std itself is `sqrtQ` of this. -/
def volume_var (cfg : Config) (candles : List Candle) (i : ℕ) : Option ℚ :=
  if 2 ≤ cfg.lookback_period ∧ cfg.lookback_period ≤ i + 1 ∧ i < candles.length then
    some (sampleVar (rwinF (volumeAt candles) cfg.lookback_period i))
  else none

/-- Column volume_volatility: rolling std of volume (volume_analyzer.py:92). -/
def volume_volatility (cfg : Config) (candles : List Candle) (i : ℕ) : Option ℚ :=
  (volume_var cfg candles i).map sqrtQ

/-- The local `volatility` series of _calculate_volume_metrics: rolling
mean of volume_volatility (volume_analyzer.py:98). -/
def vol_volatility_ma (cfg : Config) (candles : List Candle) (i : ℕ) : Option ℚ :=
  if 1 ≤ cfg.lookback_period ∧ cfg.lookback_period ≤ i + 1 ∧ i < candles.length then
    (rwinFO (volume_volatility cfg candles) cfg.lookback_period i).map listMean
  else none

/-- Column adaptive_threshold = base * (1 + volatility / volume_sma)
(volume_analyzer.py:99). -/
def adaptive_threshold (cfg : Config) (candles : List Candle) (i : ℕ) : Option ℚ :=
  (vol_volatility_ma cfg candles i).bind (fun vm =>
    (volume_sma cfg candles i).bind (fun m =>
      (qdiv vm m).map (fun r => cfg.volume_threshold * (1 + r))))

/-- Column volume_spike = volume_ratio > adaptive_threshold
(volume_analyzer.py:102): strict comparison, false on NaN. -/
def volume_spike (cfg : Config) (candles : List Candle) (i : ℕ) : Bool :=
  oGT (volume_ratio cfg candles i) (adaptive_threshold cfg candles i)

/-- Column volume_trend: rolling(5).apply(1 if last > first else -1)
(volume_analyzer.py:105). -/
def volume_trend (candles : List Candle) (i : ℕ) : Option ℚ :=
  if 5 ≤ i + 1 ∧ i < candles.length then
    some (if volumeAt candles (i - 4) < volumeAt candles i then 1 else -1)
  else none

/-- The loop of _count_consecutive_volume_spikes: scan downward from `j`
for at most `fuel` indices, stopping at the first non-spike
(volume_analyzer.py:187). -/
def consecCount (spike : ℕ → Bool) : ℕ → ℕ → ℕ
  | _, 0 => 0
  | j, fuel + 1 => if spike j then 1 + consecCount spike (j - 1) fuel else 0

/-- VolumeAnalyzer._count_consecutive_volume_spikes: Python's
`range(index, max(0, index-5), -1)` visits `min index 5` indices. -/
def count_consecutive_volume_spikes (cfg : Config) (candles : List Candle) (i : ℕ) : ℕ :=
  consecCount (volume_spike cfg candles) i (min i 5)

/-- VolumeAnalyzer._check_volume_confirmation (volume_analyzer.py:144):
returns (confirmed, capped strength). -/
def check_volume_confirmation (cfg : Config) (candles : List Candle) (i : ℕ) : Bool × ℚ :=
  let vr := volume_ratio cfg candles i
  let s1 : ℚ := 1 / 2 +
    (if oGT vr (some 2) then (3 : ℚ) / 10
     else if oGT vr (some (3 / 2)) then 1 / 5
     else if oGT vr (some (6 / 5)) then 1 / 10
     else 0)
  let s2 := s1 + (if oGT (volume_trend candles i) (some 0) then (1 : ℚ) / 10 else 0)
  let vc := (volume_change_pct candles i).map abs
  let s3 := s2 +
    (if oGT vc (some (1 / 2)) then (1 : ℚ) / 5
     else if oGT vc (some (1 / 5)) then 1 / 10
     else 0)
  let consecutive := count_consecutive_volume_spikes cfg candles i
  let s4 := s3 + (if 1 < consecutive then (consecutive : ℚ) * (1 / 10) else 0)
  let noisy := stdLT (volume_var cfg candles i) ((volume_sma cfg candles i).getD 0 * (1 / 10))
  let s5 := s4 - (if noisy then (1 : ℚ) / 5 else 0)
  let confirmed := (¬noisy : Bool) ∧ decide (3 / 10 < s5)
  (confirmed, min s5 1)

/-- The signal dict emitted for a confirmed spike at bar `i`
(volume_analyzer.py:125); metadata omitted. -/
def mkVolumeSignal (cfg : Config) (candles : List Candle) (i : ℕ) (s : ℚ) : SignalData :=
  { timestamp := tsAt candles i
    stype := "volume_spike"
    strength := s
    volume_ratio := volume_ratio cfg candles i
    volume_change_pct := volume_change_pct candles i
    volume_trend := volume_trend candles i
    confidence := min s 1 }

/-- VolumeAnalyzer._detect_volume_signals (volume_analyzer.py:111): scan
bars lookback_period … n-1. -/
def detect_volume_signals (cfg : Config) (candles : List Candle) : List SignalData :=
  (List.range candles.length).filterMap (fun i =>
    if cfg.lookback_period ≤ i ∧ volume_spike cfg candles i then
      (let c := check_volume_confirmation cfg candles i
       if c.1 then some (mkVolumeSignal cfg candles i c.2) else none)
    else none)

/-- VolumeAnalyzer.analyze (volume_analyzer.py:29): insufficient-data
guard, then metric computation and spike scan. -/
def volume_analyze (cfg : Config) (candles : List Candle) : List SignalData :=
  if candles.length < cfg.lookback_period + 1 then []
  else detect_volume_signals cfg candles

/-! ## PriceAnalyzer (services/strategy/price_analyzer.py) -/

/-- The close at bar `i`. -/
def closeAt (candles : List Candle) (i : ℕ) : ℚ :=
  ((candles.getD i { timestamp := 0, open_price := 0, high := 0, low := 0,
                     close := 0, volume := 0 }).close)

/-- The open at bar `i`. -/
def openAt (candles : List Candle) (i : ℕ) : ℚ :=
  ((candles.getD i { timestamp := 0, open_price := 0, high := 0, low := 0,
                     close := 0, volume := 0 }).open_price)

/-- The high at bar `i`. -/
def highAt (candles : List Candle) (i : ℕ) : ℚ :=
  ((candles.getD i { timestamp := 0, open_price := 0, high := 0, low := 0,
                     close := 0, volume := 0 }).high)

/-- The low at bar `i`. -/
def lowAt (candles : List Candle) (i : ℕ) : ℚ :=
  ((candles.getD i { timestamp := 0, open_price := 0, high := 0, low := 0,
                     close := 0, volume := 0 }).low)

/-- Column price_change_pct = (close - open) / open (price_analyzer.py:84). -/
def price_change_pct (candles : List Candle) (i : ℕ) : Option ℚ :=
  qdiv (closeAt candles i - openAt candles i) (openAt candles i)

/-- Column close_change_pct = close.pct_change() (price_analyzer.py:86). -/
def close_change_pct (candles : List Candle) (i : ℕ) : Option ℚ :=
  if i = 0 ∨ candles.length ≤ i then none
  else qdiv (closeAt candles i - closeAt candles (i - 1)) (closeAt candles (i - 1))

/-- Column sma_short: rolling short_period mean of close (price_analyzer.py:89). -/
def sma_short (cfg : Config) (candles : List Candle) (i : ℕ) : Option ℚ :=
  if 1 ≤ cfg.short_period ∧ cfg.short_period ≤ i + 1 ∧ i < candles.length then
    some (listMean (rwinF (closeAt candles) cfg.short_period i))
  else none

/-- Column sma_long: rolling long_period mean of close (price_analyzer.py:90). -/
def sma_long (cfg : Config) (candles : List Candle) (i : ℕ) : Option ℚ :=
  if 1 ≤ cfg.long_period ∧ cfg.long_period ≤ i + 1 ∧ i < candles.length then
    some (listMean (rwinF (closeAt candles) cfg.long_period i))
  else none

/-- Column trend_short = close - sma_short (price_analyzer.py:95). -/
def trend_short (cfg : Config) (candles : List Candle) (i : ℕ) : Option ℚ :=
  (sma_short cfg candles i).map (fun m => closeAt candles i - m)

/-- Column trend_long = close - sma_long (price_analyzer.py:96). -/
def trend_long (cfg : Config) (candles : List Candle) (i : ℕ) : Option ℚ :=
  (sma_long cfg candles i).map (fun m => closeAt candles i - m)

/-- Column momentum = close / close.shift(momentum_period) - 1
(price_analyzer.py:100). -/
def price_momentum (cfg : Config) (candles : List Candle) (i : ℕ) : Option ℚ :=
  if i < cfg.momentum_period ∨ candles.length ≤ i then none
  else (qdiv (closeAt candles i) (closeAt candles (i - cfg.momentum_period))).map (fun r => r - 1)

/-- The sample variance under column volatility: rolling long_period std
of close_change_pct (price_analyzer.py:104); NaN until the window holds
long_period non-NaN cells, i.e. until `i ≥ long_period`. -/
def price_volatility_var (cfg : Config) (candles : List Candle) (i : ℕ) : Option ℚ :=
  if 2 ≤ cfg.long_period ∧ cfg.long_period ≤ i + 1 ∧ i < candles.length then
    (rwinFO (close_change_pct candles) cfg.long_period i).map sampleVar
  else none

/-- Column resistance: rolling long_period max of high (price_analyzer.py:108). -/
def resistance (cfg : Config) (candles : List Candle) (i : ℕ) : Option ℚ :=
  if 1 ≤ cfg.long_period ∧ cfg.long_period ≤ i + 1 ∧ i < candles.length then
    some (listMax (rwinF (highAt candles) cfg.long_period i))
  else none

/-- Column support: rolling long_period min of low (price_analyzer.py:109). -/
def support (cfg : Config) (candles : List Candle) (i : ℕ) : Option ℚ :=
  if 1 ≤ cfg.long_period ∧ cfg.long_period ≤ i + 1 ∧ i < candles.length then
    some (listMin (rwinF (lowAt candles) cfg.long_period i))
  else none

/-- Column price_position = (close - support) / (resistance - support)
(price_analyzer.py:112). -/
def price_position (cfg : Config) (candles : List Candle) (i : ℕ) : Option ℚ :=
  (resistance cfg candles i).bind (fun r =>
    (support cfg candles i).bind (fun s =>
      qdiv (closeAt candles i - s) (r - s)))

/-- Column breakout_up = close > resistance.shift(1) (price_analyzer.py:115). -/
def breakout_up (cfg : Config) (candles : List Candle) (i : ℕ) : Bool :=
  if i = 0 then false
  else oGT (some (closeAt candles i)) (resistance cfg candles (i - 1))

/-- Column breakout_down = close < support.shift(1) (price_analyzer.py:116). -/
def breakout_down (cfg : Config) (candles : List Candle) (i : ℕ) : Bool :=
  if i = 0 then false
  else oLT (some (closeAt candles i)) (support cfg candles (i - 1))

/-- PriceAnalyzer._analyze_price_movement (price_analyzer.py:205): returns
(signal_detected, direction, capped strength, capped confidence). -/
def analyze_price_movement (cfg : Config) (candles : List Candle) (i : ℕ) :
    Bool × String × ℚ × ℚ :=
  let pcp := price_change_pct candles i
  let direction := if oGT pcp (some 0) then "long" else "short"
  let pAbs := pcp.map abs
  let s1 : ℚ :=
    (if oGT pAbs (some (1 / 50)) then (2 : ℚ) / 5
     else if oGT pAbs (some (1 / 100)) then 3 / 10
     else if oGT pAbs (some (1 / 200)) then 1 / 5
     else 0)
  let shortUp := oGT (trend_short cfg candles i) (some 0)
  let shortDown := oLT (trend_short cfg candles i) (some 0)
  let s2 := s1 + (if (direction = "long" ∧ shortUp) ∨ (direction = "short" ∧ shortDown)
                  then (1 : ℚ) / 5 else 0)
  let c2 : ℚ := if (direction = "long" ∧ shortUp) ∨ (direction = "short" ∧ shortDown)
                then (1 : ℚ) / 5 else 0
  let longUp := oGT (trend_long cfg candles i) (some 0)
  let longDown := oLT (trend_long cfg candles i) (some 0)
  let s3 := s2 + (if (direction = "long" ∧ longUp) ∨ (direction = "short" ∧ longDown)
                  then (1 : ℚ) / 10 else 0)
  let c3 := c2 + (if (direction = "long" ∧ longUp) ∨ (direction = "short" ∧ longDown)
                  then (1 : ℚ) / 10 else 0)
  let momUp := oGT (price_momentum cfg candles i) (some 0)
  let momDown := oLT (price_momentum cfg candles i) (some 0)
  let s4 := s3 + (if (direction = "long" ∧ momUp) ∨ (direction = "short" ∧ momDown)
                  then (1 : ℚ) / 10 else 0)
  let s5 := s4 + (if (breakout_up cfg candles i ∧ direction = "long") ∨
                     (breakout_down cfg candles i ∧ direction = "short")
                  then (1 : ℚ) / 5 else 0)
  let c5 := c3 + (if (breakout_up cfg candles i ∧ direction = "long") ∨
                     (breakout_down cfg candles i ∧ direction = "short")
                  then (1 : ℚ) / 5 else 0)
  let posHigh := oGT (price_position cfg candles i) (some (4 / 5))
  let posLow := oLT (price_position cfg candles i) (some (1 / 5))
  let s6 := s5 + (if (posHigh ∧ direction = "long") ∨ (posLow ∧ direction = "short")
                  then (1 : ℚ) / 10 else 0)
  let lowVol := stdLT (price_volatility_var cfg candles i) (1 / 100)
  let s7 := s6 - (if lowVol then (1 : ℚ) / 5 else 0)
  (decide (3 / 10 < s7), direction, min s7 1, min c5 1)

/-- The signal dict emitted for a detected price movement at bar `i`
(price_analyzer.py:184); metadata omitted. -/
def mkPriceSignal (cfg : Config) (candles : List Candle) (i : ℕ)
    (direction : String) (s c : ℚ) : SignalData :=
  { timestamp := tsAt candles i
    stype := "price_movement"
    direction := some direction
    strength := s
    price_change_pct := price_change_pct candles i
    momentum := price_momentum cfg candles i
    confidence := c }

/-- The candidate gate of _detect_price_signals (price_analyzer.py:179):
|price_change_pct| ≥ min_price_change, an inclusive comparison. -/
def price_candidate (cfg : Config) (candles : List Candle) (i : ℕ) : Bool :=
  oGE ((price_change_pct candles i).map abs) (some cfg.min_price_change)

/-- PriceAnalyzer._detect_price_signals (price_analyzer.py:168): bars
long_period … n-1 whose |price_change_pct| ≥ min_price_change. -/
def detect_price_signals (cfg : Config) (candles : List Candle) : List SignalData :=
  (List.range candles.length).filterMap (fun i =>
    if cfg.long_period ≤ i ∧ price_candidate cfg candles i then
      (let a := analyze_price_movement cfg candles i
       if a.1 then some (mkPriceSignal cfg candles i a.2.1 a.2.2.1 a.2.2.2) else none)
    else none)

/-- PriceAnalyzer.analyze (price_analyzer.py:30): the insufficient-data
guard uses the analyzer's long_period, then the signal scan. -/
def price_analyze (cfg : Config) (candles : List Candle) : List SignalData :=
  if candles.length < cfg.long_period + 1 then []
  else detect_price_signals cfg candles

/-! ## SignalCombiner (services/strategy/signal_combiner.py) -/

/-- Insert into an ascending list of timestamps. -/
def insertAscZ (x : ℤ) : List ℤ → List ℤ
  | [] => [x]
  | y :: ys => if x ≤ y then x :: y :: ys else y :: insertAscZ x ys

/-- Python `sorted(...)` over the (distinct) timestamps of a set. -/
def sortAscZ (l : List ℤ) : List ℤ := l.foldr insertAscZ []

/-- SignalCombiner._calculate_volume_score (signal_combiner.py:196); the
price score (signal_combiner.py:209) is the same computation. -/
def calculate_strength_score (signals : List SignalData) : ℚ :=
  if signals = [] then 0
  else
    let avg := listMean (signals.map (fun s => s.strength))
    let boost := min ((signals.length : ℚ) * (1 / 10)) (3 / 10)
    min (avg + boost) 1

/-- The nearest-candle scan of _calculate_momentum_score
(signal_combiner.py:229): strict improvement keeps the earliest minimiser. -/
def nearestCandle (timestamp : ℤ) (candles : List Candle) : Option Candle :=
  (candles.foldl (fun best c =>
    match best with
    | none => some (|c.timestamp - timestamp|, c)
    | some bd => if |c.timestamp - timestamp| < bd.1 then some (|c.timestamp - timestamp|, c) else best)
    none).map (fun p => p.2)

/-- SignalCombiner._calculate_momentum_score (signal_combiner.py:222); a
zero open divides by zero, and the method catches that and returns 0. -/
def calculate_momentum_score (timestamp : ℤ) (candles : List Candle) : ℚ :=
  match nearestCandle timestamp candles with
  | none => 0
  | some c =>
    if c.open_price = 0 then 0
    else min (|(c.close - c.open_price) / c.open_price| * 10) 1

/-- The first-maximal-strength signal of a nonempty list, as Python
`max(key=strength)` returns the first maximiser. -/
def strongestSignal (s0 : SignalData) (rest : List SignalData) : SignalData :=
  rest.foldl (fun best s => if best.strength < s.strength then s else best) s0

/-- SignalCombiner._determine_signal_direction (signal_combiner.py:250):
majority vote over the signals carrying a "direction" key (volume signals
carry none), ties broken by the first strongest signal of the window. -/
def determine_signal_direction (volume_signals price_signals : List SignalData) : String :=
  let directions := (volume_signals.filterMap (fun s => s.direction)) ++
                    (price_signals.filterMap (fun s => s.direction))
  if directions = [] then "unknown"
  else
    let long_count := (directions.filter (fun d => d = "long")).length
    let short_count := (directions.filter (fun d => d = "short")).length
    if short_count < long_count then "long"
    else if long_count < short_count then "short"
    else
      match volume_signals ++ price_signals with
      | [] => "unknown"
      | s0 :: rest => (strongestSignal s0 rest).direction.getD "unknown"

/-- SignalCombiner._calculate_combined_confidence (signal_combiner.py:284):
every volume/price signal carries a confidence key. -/
def calculate_combined_confidence (volume_signals price_signals : List SignalData) : ℚ :=
  let confidences := (volume_signals ++ price_signals).map (fun s => s.confidence)
  if confidences = [] then 0
  else min (listMean confidences + min ((confidences.length : ℚ) * (1 / 20)) (1 / 5)) 1

/-- SignalCombiner._create_combined_signal (signal_combiner.py:144). -/
def create_combined_signal (cfg : Config) (timestamp : ℤ)
    (volume_signals price_signals : List SignalData) (candles : List Candle) : SignalData :=
  let volume_score := calculate_strength_score volume_signals
  let price_score := calculate_strength_score price_signals
  let momentum_score := calculate_momentum_score timestamp candles
  let combined_score := volume_score * cfg.volume_weight + price_score * cfg.price_weight +
                        momentum_score * cfg.momentum_weight
  { timestamp := timestamp
    stype := "combined"
    direction := some (determine_signal_direction volume_signals price_signals)
    strength := combined_score
    confidence := calculate_combined_confidence volume_signals price_signals
    volume_score := some volume_score
    price_score := some price_score
    momentum_score := some momentum_score }

/-- SignalCombiner._combine_by_timestamp (signal_combiner.py:92): one
combined signal per distinct timestamp, fusing all signals within
± signal_timeout seconds of it. -/
def combine_by_timestamp (cfg : Config) (volume_signals price_signals : List SignalData)
    (candles : List Candle) : List SignalData :=
  let all_timestamps := sortAscZ ((volume_signals.map (fun s => s.timestamp) ++
                                   price_signals.map (fun s => s.timestamp)).dedup)
  all_timestamps.filterMap (fun t =>
    let vw := volume_signals.filter (fun s => t - cfg.signal_timeout ≤ s.timestamp ∧
                                              s.timestamp ≤ t + cfg.signal_timeout)
    let pw := price_signals.filter (fun s => t - cfg.signal_timeout ≤ s.timestamp ∧
                                             s.timestamp ≤ t + cfg.signal_timeout)
    if vw = [] ∧ pw = [] then none
    else some (create_combined_signal cfg t vw pw candles))

/-- SignalCombiner._calculate_final_quality_score (signal_combiner.py:323). -/
def calculate_final_quality_score (sig : SignalData) : ℚ :=
  let q1 := sig.strength * (2 / 5) + sig.confidence * (3 / 10)
  let vs := sig.volume_score.getD 0
  let ps := sig.price_score.getD 0
  let q2 := q1 + (if 1 / 2 < vs ∧ 1 / 2 < ps then (1 : ℚ) / 5
                  else if 3 / 10 < vs ∧ 3 / 10 < ps then 1 / 10
                  else 0)
  let q3 := q2 + (if 1 / 2 < sig.momentum_score.getD 0 then (1 : ℚ) / 10 else 0)
  min q3 1

/-- Stable insertion keeping earlier elements ahead of later equal-quality
ones, as Python's stable descending sort does. -/
def insertByQualityDesc (s : SignalData) : List SignalData → List SignalData
  | [] => [s]
  | x :: xs => if x.quality_score.getD 0 ≤ s.quality_score.getD 0 then s :: x :: xs
               else x :: insertByQualityDesc s xs

/-- SignalCombiner._filter_and_score_signals (signal_combiner.py:307):
drop combined signals under min_combined_score, attach the final quality
score, sort descending by it (stable). -/
def filter_and_score_signals (cfg : Config) (combined : List SignalData) : List SignalData :=
  let kept := (combined.filter (fun s => cfg.min_combined_score ≤ s.strength)).map
    (fun s => { s with quality_score := some (calculate_final_quality_score s) })
  kept.foldr insertByQualityDesc []

/-- SignalCombiner.combine_signals (signal_combiner.py:31). -/
def combine_signals (cfg : Config) (volume_signals price_signals : List SignalData)
    (candles : List Candle) : List SignalData :=
  if volume_signals = [] ∧ price_signals = [] then []
  else filter_and_score_signals cfg (combine_by_timestamp cfg volume_signals price_signals candles)

/-! ## Backtest simulation (services/strategy.py, the canonical variant
per the specification: HybridStrategy._execute_backtest, strategy.py:136) -/

/-- Closing a trade: the field mutations of strategy.py:157-165 (and of
the force-close at strategy.py:192-199). -/
def close_trade_at (t : Trade) (ts : ℤ) (price pnl : ℚ) (reason : ExitReason) : Trade :=
  { t with exit_time := some ts
           exit_price := some price
           pnl := some pnl
           exit_reason := some reason
           duration_minutes := some (tdivZ (ts - t.entry_time) 60) }

/-- The mutable state of the simulation loop: closed trades, active
trades, available capital, and the number of trades created so far (which
indexes the wall clock for ids). -/
structure SimState where
  trades : List Trade
  active : List Trade
  capital : ℚ
  tcount : ℕ
  deriving Repr

/-- signal_lookup (strategy.py:148): a dict comprehension keyed by
timestamp, so the last signal with a given timestamp wins. -/
def lookup_signal (signals : List SignalData) (t : ℤ) : Option SignalData :=
  (signals.filter (fun s => s.timestamp = t)).getLast?

/-- One step of the exit loop over the active trades (strategy.py:152):
accumulates (newly closed, still active, credited PnL). -/
def exit_fold_step (candle : Candle) (acc : List Trade × List Trade × ℚ) (tr : Trade) :
    List Trade × List Trade × ℚ :=
  match check_exit_conditions tr candle with
  | some info =>
      (acc.1 ++ [close_trade_at tr candle.timestamp info.exit_price info.pnl info.exit_reason],
       acc.2.1, acc.2.2 + info.pnl)
  | none => (acc.1, acc.2.1 ++ [tr], acc.2.2)

/-- The exit loop over all active trades at one candle (strategy.py:152-171). -/
def process_exits (active : List Trade) (candle : Candle) : List Trade × List Trade × ℚ :=
  active.foldl (exit_fold_step candle) ([], [], 0)

/-- One iteration of the candle loop (strategy.py:150-186): close every
active trade whose exit condition fires, then (if idle, under the trade
cap, and a signal matches this candle's timestamp) try to open one. -/
def sim_step (cfg : Config) (signals : List SignalData) (max_trades : ℕ) (clock : ℕ → ℤ)
    (st : SimState) (candle : Candle) : SimState :=
  let ex := process_exits st.active candle
  let trades1 := st.trades ++ ex.1
  let active1 := ex.2.1
  let capital1 := st.capital + ex.2.2
  if active1.length = 0 ∧ trades1.length < max_trades then
    match lookup_signal signals candle.timestamp with
    | some sig =>
      match create_trade cfg sig candle capital1 (clock st.tcount) with
      | some tr =>
        { trades := trades1, active := active1 ++ [tr], capital := capital1 - tr.size,
          tcount := st.tcount + 1 }
      | none => { trades := trades1, active := active1, capital := capital1, tcount := st.tcount }
    | none => { trades := trades1, active := active1, capital := capital1, tcount := st.tcount }
  else { trades := trades1, active := active1, capital := capital1, tcount := st.tcount }

/-- The state after the candle loop of _execute_backtest. -/
def execute_backtest_sim (cfg : Config) (candles : List Candle) (signals : List SignalData)
    (params : Params) (clock : ℕ → ℤ) : SimState :=
  candles.foldl (sim_step cfg signals params.max_trades clock)
    { trades := [], active := [], capital := params.initial_capital, tcount := 0 }

/-- HybridStrategy._execute_backtest (strategy.py:136): the candle loop,
then any still-active trade force-closed at the final candle's close with
ExitReason.MANUAL (strategy.py:188-201). -/
def execute_backtest (cfg : Config) (candles : List Candle) (signals : List SignalData)
    (params : Params) (clock : ℕ → ℤ) : List Trade :=
  let fin := execute_backtest_sim cfg candles signals params clock
  match candles.getLast? with
  | none => fin.trades
  | some last =>
    fin.trades ++ fin.active.map (fun tr =>
      close_trade_at tr last.timestamp last.close (calculate_pnl tr last.close) ExitReason.manual)

/-! ## Statistics (HybridStrategy._calculate_statistics, strategy.py:205) -/

/-- The statistics dict of strategy.py:205; counts are naturals, the rest
rationals. -/
structure Stats where
  total_trades : ℕ
  winning_trades : ℕ
  losing_trades : ℕ
  win_rate : ℚ
  total_pnl : ℚ
  total_return : ℚ
  avg_win : ℚ
  avg_loss : ℚ
  profit_factor : ℚ
  max_drawdown : ℚ
  sharpe_ratio : ℚ
  avg_trade_duration : ℚ
  max_trade_duration : ℚ
  min_trade_duration : ℚ
  consecutive_wins : ℕ
  consecutive_losses : ℕ
  largest_win : ℚ
  largest_loss : ℚ
  deriving DecidableEq, Repr

/-- The all-zero statistics returned for an empty trade list
(strategy.py:207-227). -/
def zeroStats : Stats :=
  { total_trades := 0, winning_trades := 0, losing_trades := 0, win_rate := 0,
    total_pnl := 0, total_return := 0, avg_win := 0, avg_loss := 0, profit_factor := 0,
    max_drawdown := 0, sharpe_ratio := 0, avg_trade_duration := 0, max_trade_duration := 0,
    min_trade_duration := 0, consecutive_wins := 0, consecutive_losses := 0,
    largest_win := 0, largest_loss := 0 }

/-- A trade's pnl as Python reads it with a falsy default (None → 0). -/
def pnlD (t : Trade) : ℚ := t.pnl.getD 0

/-- The drawdown walk over cumulative PnL (strategy.py:247-250):
running-max minus cumulative sum, maximised. -/
def drawdownAux : List ℚ → ℚ → ℚ → ℚ → ℚ
  | [], _, _, best => best
  | p :: rest, cum, rm, best =>
    let cum1 := cum + p
    let rm1 := max rm cum1
    drawdownAux rest cum1 rm1 (max best (rm1 - cum1))

/-- max drawdown of a PnL sequence; 0 for the empty sequence. -/
def maxDrawdownOf : List ℚ → ℚ
  | [] => 0
  | p :: rest => drawdownAux rest p (max p p) 0

/-- HybridStrategy._calculate_consecutive_trades (strategy.py:296). -/
def consecutiveAux : List Trade → ℕ → ℕ → ℕ → ℕ → ℕ × ℕ
  | [], _, _, mw, ml => (mw, ml)
  | t :: rest, cw, cl, mw, ml =>
    if 0 < pnlD t then consecutiveAux rest (cw + 1) 0 (max mw (cw + 1)) ml
    else if pnlD t < 0 then consecutiveAux rest 0 (cl + 1) mw (max ml (cl + 1))
    else consecutiveAux rest cw cl mw ml

/-- HybridStrategy._calculate_statistics (strategy.py:205).  Note
profit_factor = abs(avg_win / avg_loss) when avg_loss is nonzero
(strategy.py:244), the Sharpe ratio uses the numpy population std
(modelled through sqrtQ), and every `if t.pnl` / `if t.duration_minutes`
filter drops falsy (absent or zero) values. -/
def calc_statistics (trades : List Trade) (initial_capital : ℚ) : Stats :=
  if trades = [] then zeroStats
  else
    let winning := trades.filter (fun t => 0 < pnlD t)
    let losing := trades.filter (fun t => pnlD t < 0)
    let total_trades := trades.length
    let win_count := winning.length
    let loss_count := losing.length
    let pnls := (trades.filter (fun t => pnlD t ≠ 0)).map pnlD
    let total_pnl := pnls.sum
    let total_return := if 0 < initial_capital then total_pnl / initial_capital else 0
    let avg_win := if winning = [] then 0 else listMean (winning.map pnlD)
    let avg_loss := if losing = [] then 0 else listMean (losing.map pnlD)
    let profit_factor := if avg_loss ≠ 0 then |avg_win / avg_loss| else 0
    let returns := pnls.map (fun p => p / initial_capital)
    let sharpe :=
      if 1 < returns.length then
        (if 0 < sqrtQ (popVar returns) then listMean returns / sqrtQ (popVar returns) else 0)
      else 0
    let durations := (trades.filter (fun t => t.duration_minutes.getD 0 ≠ 0)).map
      (fun t => ((t.duration_minutes.getD 0 : ℤ) : ℚ))
    let consec := consecutiveAux trades 0 0 0 0
    { total_trades := total_trades
      winning_trades := win_count
      losing_trades := loss_count
      win_rate := if 0 < total_trades then (win_count : ℚ) / (total_trades : ℚ) else 0
      total_pnl := total_pnl
      total_return := total_return
      avg_win := avg_win
      avg_loss := avg_loss
      profit_factor := profit_factor
      max_drawdown := maxDrawdownOf pnls
      sharpe_ratio := sharpe
      avg_trade_duration := if durations = [] then 0 else listMean durations
      max_trade_duration := if durations = [] then 0 else listMax durations
      min_trade_duration := if durations = [] then 0 else listMin durations
      consecutive_wins := consec.1
      consecutive_losses := consec.2
      largest_win := if pnls = [] then 0 else listMax pnls
      largest_loss := if pnls = [] then 0 else listMin pnls }

/-! ## The pipeline (HybridStrategy.detect_signals / run_backtest,
strategy.py:39-134) -/

/-- HybridStrategy.detect_signals (strategy.py:39): the run-level
insufficient-data guard uses params.lookback_period, and the analyzers
their own constructor-config periods. -/
def detect_signals_all (cfg : Config) (candles : List Candle) (params : Params) :
    List SignalData :=
  if candles.length < params.lookback_period + 1 then []
  else
    filter_signals (combine_signals cfg (volume_analyze cfg candles)
      (price_analyze cfg candles) candles)

/-- The result record of run_backtest (strategy.py:115-127); candles,
parameters, data_period and wall-clock execution_time are not modelled. -/
structure RunResult where
  trades : List Trade
  statistics : Stats
  final_capital : ℚ
  success : Bool
  error_message : Option String
  deriving Repr

/-- HybridStrategy.run_backtest (strategy.py:86): empty signal list gives
the empty result of _create_empty_backtest_result (strategy.py:318);
otherwise simulate and report final_capital = initial_capital + the sum
of the (truthy) trade PnLs (strategy.py:119). -/
def run_backtest (cfg : Config) (candles : List Candle) (params : Params)
    (clock : ℕ → ℤ) : RunResult :=
  let signals := detect_signals_all cfg candles params
  if signals = [] then
    { trades := []
      statistics := calc_statistics [] params.initial_capital
      final_capital := params.initial_capital
      success := true
      error_message := some "No signals detected" }
  else
    let trades := execute_backtest cfg candles signals params clock
    { trades := trades
      statistics := calc_statistics trades params.initial_capital
      final_capital := params.initial_capital +
        ((trades.filter (fun t => pnlD t ≠ 0)).map pnlD).sum
      success := true
      error_message := none }

/-! ## Auxiliary definitions used only to state claims -/

/-- The candle's close has reached or passed the trade's take-profit in
the favorable direction (claim C1's wording). -/
def reached_take_profit (trade : Trade) (candle : Candle) : Prop :=
  match trade.direction with
  | TradeDirection.long => trade.take_profit ≤ candle.close
  | TradeDirection.short => candle.close ≤ trade.take_profit

/-- The candle's close has reached or passed the trade's stop-loss in the
adverse direction (claim C1's wording). -/
def reached_stop_loss (trade : Trade) (candle : Candle) : Prop :=
  match trade.direction with
  | TradeDirection.long => candle.close ≤ trade.stop_loss
  | TradeDirection.short => trade.stop_loss ≤ candle.close

/-- The PnL formula of the specification, read off a closed trade's own
recorded exit price. -/
def pnl_formula (t : Trade) : ℚ :=
  if t.direction = TradeDirection.long then
    t.size * (t.exit_price.getD 0 - t.entry_price) / t.entry_price
  else
    t.size * (t.entry_price - t.exit_price.getD 0) / t.entry_price

/-- The end of a trade's [entry_time, exit_time) interval (entry itself
for a still-open trade, making the interval empty). -/
def endTime (t : Trade) : ℤ := t.exit_time.getD t.entry_time

/-- Two trades' [entry_time, exit_time) intervals do not overlap. -/
def no_overlap (a b : Trade) : Prop :=
  endTime a ≤ b.entry_time ∨ endTime b ≤ a.entry_time

/-- A trade with its wall-clock-derived id field scrubbed. -/
def strip_id (t : Trade) : Trade := { t with id := 0 }

/-- Two simulator states that agree everywhere except possibly in the
wall-clock-derived trade ids. -/
def SimRel (st1 st2 : SimState) : Prop :=
  st1.trades.map strip_id = st2.trades.map strip_id ∧
  st1.active.map strip_id = st2.active.map strip_id ∧
  st1.capital = st2.capital ∧
  st1.tcount = st2.tcount

/-- A maximally flat candle: every price equal and fixed volume. -/
def flat_candle (p v : ℚ) (t : ℤ) : Candle :=
  { timestamp := t, open_price := p, high := p, low := p, close := p, volume := v }

/-- A series of n identical flat candles at timestamps t0, t0+dt, ... -/
def flat_series (n : ℕ) (p v : ℚ) (t0 dt : ℤ) : List Candle :=
  (List.range n).map (fun i : ℕ => flat_candle p v (t0 + (i : ℤ) * dt))

/-- Gross profit: the sum of all winning trades' PnL. -/
def gross_profit (trades : List Trade) : ℚ :=
  ((trades.filter (fun t => 0 < pnlD t)).map pnlD).sum

/-- Gross loss (absolute): minus the sum of all losing trades' PnL. -/
def gross_loss_abs (trades : List Trade) : ℚ :=
  -((trades.filter (fun t => pnlD t < 0)).map pnlD).sum

/-- The profit factor of the alternate implementation
(services/strategy/hybrid_strategy.py:289): gross profit over gross loss
when a losing trade exists, and the float('inf') sentinel (modelled as
none) otherwise. -/
def hybrid_profit_factor (trades : List Trade) : Option ℚ :=
  if (trades.filter (fun t => pnlD t < 0)).length ≠ 0 then
    some |((trades.filter (fun t => 0 < pnlD t)).map pnlD).sum /
          ((trades.filter (fun t => pnlD t < 0)).map pnlD).sum|
  else none

/-! ## Concrete inputs used by witnesses and counterexamples -/

/-- The specification's take-profit scenario trade: long at entry 100
with take-profit 102 and stop-loss 99, size 500. -/
def c1Trade : Trade :=
  { id := 0, entry_time := 0, direction := TradeDirection.long, entry_price := 100,
    size := 500, take_profit := 102, stop_loss := 99 }

/-- A later candle closing at 102.5, past both nothing else. -/
def c1Candle : Candle :=
  { timestamp := 60, open_price := 101, high := 103, low := 101, close := 205 / 2, volume := 10 }

/-- Params with the max-trades cap set to 1 for the C5 scenario. -/
def c5Params : Params := { lookback_period := 20, max_trades := 1, initial_capital := 10000 }

/-- Three candles: a flat entry bar, a bar closing past take-profit, and
a final bar carrying a second (to-be-discarded) signal. -/
def c5Candles : List Candle :=
  [ { timestamp := 0, open_price := 100, high := 100, low := 100, close := 100, volume := 10 },
    { timestamp := 60, open_price := 100, high := 103, low := 100, close := 103, volume := 10 },
    { timestamp := 120, open_price := 103, high := 103, low := 100, close := 100, volume := 10 } ]

/-- A qualifying filtered signal at the first candle. -/
def c5Sig1 : SignalData :=
  { timestamp := 0, stype := "combined", direction := some "long", strength := 1 / 2,
    confidence := 1 / 2, quality_score := some (1 / 2) }

/-- A second qualifying filtered signal at the last candle. -/
def c5Sig2 : SignalData :=
  { timestamp := 120, stype := "combined", direction := some "long", strength := 1 / 2,
    confidence := 1 / 2, quality_score := some (1 / 2) }

/-- A default-parameter bundle used by concrete simulator runs. -/
def c5ParamsWide : Params := { lookback_period := 20, max_trades := 100, initial_capital := 10000 }

/-- Analyzer config for the full-pipeline demo: all periods 5 so a short
series carries a signal through the whole pipeline. -/
def demoCfg : Config :=
  { lookback_period := 5, short_period := 5, long_period := 5, momentum_period := 10 }

/-- Params matching demoCfg. -/
def demoParams : Params := { lookback_period := 5, max_trades := 100, initial_capital := 10000 }

/-- Twelve candles with constant volume, flat at 100, a 6% up-bar at
index 9, then flat at 106: the pipeline emits exactly one combined long
signal at timestamp 540 and the simulator opens one trade there. -/
def demoCandles : List Candle :=
  (flat_series 9 100 10 0 60) ++
  [ { timestamp := 540, open_price := 100, high := 106, low := 100, close := 106, volume := 10 },
    flat_candle 106 10 600, flat_candle 106 10 660 ]

/-- Analyzer config for the C6 counterexample: a price analyzer with
long_period 5 under a run-level lookback_period of 20. -/
def c6Cfg : Config :=
  { lookback_period := 20, short_period := 5, long_period := 5, momentum_period := 10 }

/-- Eight candles (fewer than lookback_period + 1 = 21): flat at 100 with
a 3% up-bar at the end, which the price analyzer (long_period 5) turns
into a signal. -/
def c6Candles : List Candle :=
  (flat_series 7 100 10 0 60) ++
  [ { timestamp := 420, open_price := 100, high := 103, low := 100, close := 103, volume := 10 } ]

/-- Config for the C7 witness: flat volume against base threshold 1 makes
volume_ratio and adaptive_threshold exactly equal. -/
def c7Cfg : Config := { lookback_period := 5, volume_threshold := 1 }

/-- Ten flat candles for the C7 witness. -/
def c7Candles : List Candle := flat_series 10 100 7 0 60

/-- A candle whose open→close change fraction is exactly the default
min_price_change of 1/200. -/
def c7PriceCandles : List Candle :=
  (flat_series 5 200 10 0 60) ++
  [ { timestamp := 300, open_price := 200, high := 201, low := 200, close := 201, volume := 10 } ]

/-- The single trade produced by the C5 scenario run: opened on the
first candle, take-profit exit on the second. -/
def c4Trade : Trade :=
  { id := 0, entry_time := 0, direction := TradeDirection.long, entry_price := 100,
    size := 500, take_profit := 102, stop_loss := 99, exit_time := some 60,
    exit_price := some 102, pnl := some 10, exit_reason := some ExitReason.take_profit,
    duration_minutes := some 1 }

/-- Three closed trades — two winners of +1 and one loser of −1 — on
which the reported profit factor (1) differs from gross profit over gross
loss (2). -/
def c9Trades : List Trade :=
  [ { id := 0, entry_time := 0, direction := TradeDirection.long, entry_price := 100,
      size := 100, take_profit := 102, stop_loss := 99, exit_time := some 60,
      exit_price := some 101, pnl := some 1, exit_reason := some ExitReason.take_profit,
      duration_minutes := some 1 },
    { id := 1, entry_time := 120, direction := TradeDirection.long, entry_price := 100,
      size := 100, take_profit := 102, stop_loss := 99, exit_time := some 180,
      exit_price := some 101, pnl := some 1, exit_reason := some ExitReason.take_profit,
      duration_minutes := some 1 },
    { id := 2, entry_time := 240, direction := TradeDirection.long, entry_price := 100,
      size := 100, take_profit := 102, stop_loss := 99, exit_time := some 300,
      exit_price := some 99, pnl := some (-1), exit_reason := some ExitReason.stop_loss,
      duration_minutes := some 1 } ]

/-! ## Theorems -/

set_option maxRecDepth 1000000

set_option maxHeartbeats 4000000

/-- C1: check_exit_conditions evaluates take-profit before stop-loss: a
close at or past the take-profit in the favorable direction exits at the
take-profit price with reason take_profit (even if the stop-loss is also
passed); otherwise a close at or past the stop-loss in the adverse
direction exits at the stop-loss price with reason stop_loss; otherwise
there is no exit. -/
theorem claim_C1 (trade : Trade) (candle : Candle) :
    (reached_take_profit trade candle →
      check_exit_conditions trade candle =
        some { exit_price := trade.take_profit, exit_reason := ExitReason.take_profit,
               pnl := calculate_pnl trade trade.take_profit }) ∧
    (¬ reached_take_profit trade candle → reached_stop_loss trade candle →
      check_exit_conditions trade candle =
        some { exit_price := trade.stop_loss, exit_reason := ExitReason.stop_loss,
               pnl := calculate_pnl trade trade.stop_loss }) ∧
    (¬ reached_take_profit trade candle → ¬ reached_stop_loss trade candle →
      check_exit_conditions trade candle = none) := by
  refine ⟨?_, ?_, ?_⟩
  · intro h1
    rcases htd : trade.direction with _ | _ <;>
    · simp only [reached_take_profit, htd] at h1
      simp [check_exit_conditions, htd, h1]
  · intro h1 h2
    rcases htd : trade.direction with _ | _ <;>
    · simp only [reached_take_profit, htd] at h1
      simp only [reached_stop_loss, htd] at h2
      simp [check_exit_conditions, htd, h1, h2]
  · intro h1 h2
    rcases htd : trade.direction with _ | _ <;>
    · simp only [reached_take_profit, htd] at h1
      simp only [reached_stop_loss, htd] at h2
      simp [check_exit_conditions, htd, h1, h2]

/-- C1 witness: the specification's scenario — long at 100 with
take-profit 102, stop-loss 99, candle closing at 102.5 exits at 102 with
reason take_profit and pnl = size × 0.02. -/
theorem claim_C1_witness :
    reached_take_profit c1Trade c1Candle ∧
    check_exit_conditions c1Trade c1Candle =
      some { exit_price := 102, exit_reason := ExitReason.take_profit, pnl := 10 } ∧
    (10 : ℚ) = c1Trade.size * (2 / 100) := by
  have hr : reached_take_profit c1Trade c1Candle := by
    simp only [reached_take_profit, c1Trade, c1Candle]
    norm_num
  refine ⟨hr, ?_, by norm_num [c1Trade]⟩
  have h := (claim_C1 c1Trade c1Candle).1 hr
  rw [h]
  with_unfolding_all decide

/-- C3: every trade created by create_trade from a positive close and
positive stop-loss and take-profit fractions has its stop-loss strictly
more adverse and its take-profit strictly more favorable than the entry
price, per its direction. -/
theorem claim_C3 (cfg : Config) (sig : SignalData) (candle : Candle)
    (capital : ℚ) (now : ℤ) (t : Trade)
    (hsl : 0 < cfg.stop_loss) (htp : 0 < cfg.take_profit) (hc : 0 < candle.close)
    (h : create_trade cfg sig candle capital now = some t) :
    (t.direction = TradeDirection.long →
      t.stop_loss < t.entry_price ∧ t.entry_price < t.take_profit) ∧
    (t.direction = TradeDirection.short →
      t.take_profit < t.entry_price ∧ t.entry_price < t.stop_loss) := by
  simp only [create_trade] at h
  by_cases hps : calculate_position_size cfg sig candle capital ≤ 0
  · rw [if_pos hps] at h
    exact absurd h (by simp)
  · rw [if_neg hps] at h
    rcases hd : sig.direction with _ | d
    · rw [hd] at h
      exact absurd h (by simp)
    · rw [hd] at h
      by_cases hld : d = "long"
      · subst hld
        simp only [if_pos rfl] at h
        split_ifs at h with hval
        · replace h := (Option.some.inj h).symm
          subst h
          refine ⟨fun _ => ?_, fun hcontra => by simp at hcontra⟩
          unfold calculate_stop_loss calculate_take_profit
          rw [if_pos rfl, if_pos rfl]
          dsimp only
          constructor <;> nlinarith
      · simp only [if_neg hld] at h
        split_ifs at h with hval
        · replace h := (Option.some.inj h).symm
          subst h
          refine ⟨fun hcontra => by simp at hcontra, fun _ => ?_⟩
          unfold calculate_stop_loss calculate_take_profit
          rw [if_neg hld, if_neg hld]
          dsimp only
          constructor <;> nlinarith

/-- C3 witness: the default risk config creates, from a long signal on a
flat candle at 100 with 10000 capital, the trade with stop 99 < entry
100 < take-profit 102. -/
theorem claim_C3_witness :
    (0 : ℚ) < Config.stop_loss {} ∧ (0 : ℚ) < Config.take_profit {} ∧
    create_trade {} c5Sig1 (flat_candle 100 10 0) 10000 0 = some c1Trade ∧
    c1Trade.stop_loss < c1Trade.entry_price ∧ c1Trade.entry_price < c1Trade.take_profit := by
  have hcr : create_trade {} c5Sig1 (flat_candle 100 10 0) 10000 0 = some c1Trade := by
    with_unfolding_all decide
  have h := claim_C3 {} c5Sig1 (flat_candle 100 10 0) 10000 0 c1Trade
    (by norm_num) (by norm_num) (by norm_num [flat_candle]) hcr
  exact ⟨by norm_num, by norm_num, hcr, h.1 rfl⟩

/-- C7: a volume ratio exactly equal to the adaptive threshold is NOT a
volume spike (the comparison is a strict >), while a price change
fraction exactly equal to min_price_change DOES pass the price candidate
gate (the comparison is a ≥). -/
theorem claim_C7 :
    (∀ (cfg : Config) (candles : List Candle) (i : ℕ) (q : ℚ),
      volume_ratio cfg candles i = some q → adaptive_threshold cfg candles i = some q →
      volume_spike cfg candles i = false) ∧
    (∀ (cfg : Config) (candles : List Candle) (i : ℕ) (m : ℚ),
      price_change_pct candles i = some m → m = cfg.min_price_change →
      price_candidate cfg candles i = true) := by
  constructor
  · intro cfg candles i q h1 h2
    unfold volume_spike
    rw [h1, h2]
    simp [oGT]
  · intro cfg candles i m h1 h2
    unfold price_candidate
    rw [h1]
    subst h2
    simp [oGE, le_abs_self]

/-- C7 witness: on ten flat candles with base threshold 1 the ratio and
the adaptive threshold are both exactly 1 at bar 9 and no spike fires;
and a bar moving from 200 to 201 has price change exactly the default
min_price_change 1/200 and passes the candidate gate. -/
theorem claim_C7_witness :
    volume_ratio c7Cfg c7Candles 9 = some 1 ∧
    adaptive_threshold c7Cfg c7Candles 9 = some 1 ∧
    volume_spike c7Cfg c7Candles 9 = false ∧
    price_change_pct c7PriceCandles 5 = some (1 / 200) ∧
    price_candidate {} c7PriceCandles 5 = true := by
  have h1 : volume_ratio c7Cfg c7Candles 9 = some 1 := by with_unfolding_all decide
  have h2 : adaptive_threshold c7Cfg c7Candles 9 = some 1 := by with_unfolding_all decide
  have h3 : price_change_pct c7PriceCandles 5 = some (1 / 200) := by with_unfolding_all decide
  exact ⟨h1, h2, claim_C7.1 c7Cfg c7Candles 9 1 h1 h2, h3,
    claim_C7.2 {} c7PriceCandles 5 (1 / 200) h3 rfl⟩

/-- A list of negative rationals has negative sum. -/
theorem sum_neg_of_forall_neg (l : List ℚ) (h : ∀ x ∈ l, x < 0) (hne : l ≠ []) :
    l.sum < 0 := by
  induction l with
  | nil => exact absurd rfl hne
  | cons x xs ih =>
    rcases List.eq_nil_or_concat xs with hxs | _
    · subst hxs
      simpa using h x (by simp)
    · have hxs : xs ≠ [] := by
        rintro rfl
        simp_all

      have := ih (fun y hy => h y (List.mem_cons_of_mem x hy)) hxs
      have hx := h x (List.mem_cons_self x xs)
      simp only [List.sum_cons]
      linarith

/-- Elements of the winning filter have positive pnl. -/
theorem mem_win_filter_pos (trades : List Trade) (x : ℚ)
    (hx : x ∈ (trades.filter (fun t => 0 < pnlD t)).map pnlD) : 0 < x := by
  rcases List.mem_map.1 hx with ⟨t, ht, rfl⟩
  have := (List.mem_filter.1 ht).2
  simpa using this

/-- Elements of the losing filter have negative pnl. -/
theorem mem_loss_filter_neg (trades : List Trade) (x : ℚ)
    (hx : x ∈ (trades.filter (fun t => pnlD t < 0)).map pnlD) : x < 0 := by
  rcases List.mem_map.1 hx with ⟨t, ht, rfl⟩
  have := (List.mem_filter.1 ht).2
  simpa using this

/-- C9 (corrected): the canonical statistics (strategy.py:244) compute
profit_factor as |avg_win / avg_loss|, which equals gross profit × losing
count / (winning count × gross loss) — not gross profit / gross loss; the
alternate hybrid_strategy.py:289 statistics do compute gross profit /
gross loss, with the float('inf') sentinel (none) when no trade loses. -/
theorem claim_C9 (trades : List Trade) (cap : ℚ) :
    ((calc_statistics trades cap).profit_factor =
      gross_profit trades * ((trades.filter (fun t => pnlD t < 0)).length : ℚ) /
        (((trades.filter (fun t => 0 < pnlD t)).length : ℚ) * gross_loss_abs trades)) ∧
    ((trades.filter (fun t => pnlD t < 0)) ≠ [] →
      hybrid_profit_factor trades = some (gross_profit trades / gross_loss_abs trades)) ∧
    ((trades.filter (fun t => pnlD t < 0)) = [] → hybrid_profit_factor trades = none) := by
  have hwin_nonneg : (0 : ℚ) ≤ ((trades.filter (fun t => 0 < pnlD t)).map pnlD).sum :=
    List.sum_nonneg (fun x hx => le_of_lt (mem_win_filter_pos trades x hx))
  refine ⟨?_, ?_, ?_⟩
  · by_cases hemp : trades = []
    · subst hemp
      simp [calc_statistics, zeroStats, gross_profit, gross_loss_abs]
    · simp only [calc_statistics, if_neg hemp]
      by_cases hL : trades.filter (fun t => pnlD t < 0) = []
      · simp only [hL]
        simp [gross_loss_abs, hL]
      · have hsumL : ((trades.filter (fun t => pnlD t < 0)).map pnlD).sum < 0 :=
          sum_neg_of_forall_neg _ (mem_loss_filter_neg trades)
            (by simpa using hL)
        have hlenL : (0 : ℚ) < ((trades.filter (fun t => pnlD t < 0)).length : ℚ) := by
          have hpos : 0 < (trades.filter (fun t => pnlD t < 0)).length :=
            List.length_pos.2 hL
          exact_mod_cast hpos
        have havgL : listMean ((trades.filter (fun t => pnlD t < 0)).map pnlD) < 0 := by
          unfold listMean
          rw [List.length_map]
          exact div_neg_of_neg_of_pos hsumL hlenL
        by_cases hW : trades.filter (fun t => 0 < pnlD t) = []
        · simp [if_neg hL, if_pos hW, if_pos (ne_of_lt havgL), gross_profit, hW]
        · have hlenW : (0 : ℚ) < ((trades.filter (fun t => 0 < pnlD t)).length : ℚ) := by
            have hpos : 0 < (trades.filter (fun t => 0 < pnlD t)).length :=
              List.length_pos.2 hW
            exact_mod_cast hpos
          have havgW : 0 ≤ listMean ((trades.filter (fun t => 0 < pnlD t)).map pnlD) := by
            unfold listMean
            rw [List.length_map]
            exact div_nonneg hwin_nonneg (le_of_lt hlenW)
          simp only [if_neg hL, if_neg hW, if_pos (ne_of_lt havgL)]
          rw [abs_div, abs_of_nonneg havgW, abs_of_neg havgL]
          unfold listMean gross_profit gross_loss_abs
          rw [List.length_map, List.length_map]
          have hw0 : ((trades.filter (fun t => 0 < pnlD t)).length : ℚ) ≠ 0 := ne_of_gt hlenW
          have hl0 : ((trades.filter (fun t => pnlD t < 0)).length : ℚ) ≠ 0 := ne_of_gt hlenL
          have hS0 : ((trades.filter (fun t => pnlD t < 0)).map pnlD).sum ≠ 0 := ne_of_lt hsumL
          field_simp
  · intro hL
    have hsumL : ((trades.filter (fun t => pnlD t < 0)).map pnlD).sum < 0 :=
      sum_neg_of_forall_neg _ (mem_loss_filter_neg trades) (by simpa using hL)
    unfold hybrid_profit_factor
    rw [if_pos (fun h0 => hL (List.length_eq_zero.1 h0))]
    unfold gross_profit gross_loss_abs
    rw [abs_div, abs_of_nonneg hwin_nonneg, abs_of_neg hsumL]
  · intro hL
    unfold hybrid_profit_factor
    rw [if_neg (by simp [hL])]

/-- C9 counterexample: on two +1 winners and one −1 loser the reported
profit factor is 1 while gross profit over gross loss is 2. -/
theorem claim_C9_counterexample :
    (calc_statistics c9Trades 1000).profit_factor ≠
      gross_profit c9Trades / gross_loss_abs c9Trades := by
  with_unfolding_all decide

/-- C9 witness: on the same three trades the theorem gives the reported
profit factor 2 × 1 / (2 × 1) = 1 and the hybrid gross ratio 2. -/
theorem claim_C9_witness :
    (calc_statistics c9Trades 1000).profit_factor =
      gross_profit c9Trades * ((c9Trades.filter (fun t => pnlD t < 0)).length : ℚ) /
        (((c9Trades.filter (fun t => 0 < pnlD t)).length : ℚ) * gross_loss_abs c9Trades) ∧
    c9Trades.filter (fun t => pnlD t < 0) ≠ [] ∧
    hybrid_profit_factor c9Trades = some (gross_profit c9Trades / gross_loss_abs c9Trades) := by
  have hne : c9Trades.filter (fun t => pnlD t < 0) ≠ [] := by with_unfolding_all decide
  exact ⟨(claim_C9 c9Trades 1000).1, hne, (claim_C9 c9Trades 1000).2.1 hne⟩

/-- Dropping zero summands does not change a sum of pnls. -/
theorem sum_filter_nonzero_pnl (l : List Trade) :
    ((l.filter (fun t => pnlD t ≠ 0)).map pnlD).sum = (l.map pnlD).sum := by
  induction l with
  | nil => rfl
  | cons t ts ih =>
    rw [List.filter_cons]
    by_cases h : pnlD t = 0
    · rw [if_neg (by simp [h])]
      rw [ih, List.map_cons, List.sum_cons, h, zero_add]
    · rw [if_pos (by simp [h])]
      rw [List.map_cons, List.map_cons, List.sum_cons, List.sum_cons, ih]

/-- C10: the reported final_capital is initial_capital plus the sum of
the PnLs of the returned trades (strategy.py:119); it is not the running
available-capital counter of the simulation loop, which on the demo run
ends at 9813.5 while final_capital is 10000. -/
theorem claim_C10 :
    (∀ (cfg : Config) (candles : List Candle) (params : Params) (clock : ℕ → ℤ),
      (run_backtest cfg candles params clock).final_capital =
        params.initial_capital +
          ((run_backtest cfg candles params clock).trades.map pnlD).sum) ∧
    (run_backtest demoCfg demoCandles demoParams (fun _ => 0)).final_capital ≠
      (execute_backtest_sim demoCfg demoCandles
        (detect_signals_all demoCfg demoCandles demoParams) demoParams (fun _ => 0)).capital := by
  constructor
  · intro cfg candles params clock
    simp only [run_backtest]
    split_ifs with hsig
    · simp
    · simp only
      rw [sum_filter_nonzero_pnl]
  · with_unfolding_all decide

/-- The exit loop conserves the total number of trades it touches. -/
theorem exits_fold_len (c : Candle) :
    ∀ (l : List Trade) (acc : List Trade × List Trade × ℚ),
      (l.foldl (exit_fold_step c) acc).1.length + (l.foldl (exit_fold_step c) acc).2.1.length =
        acc.1.length + acc.2.1.length + l.length := by
  intro l
  induction l with
  | nil => intro acc; simp
  | cons t ts ih =>
    intro acc
    rw [List.foldl_cons, ih]
    unfold exit_fold_step
    cases check_exit_conditions t c <;> simp <;> omega

/-- process_exits splits the active list into closed and surviving parts
of the same total length. -/
theorem process_exits_len (active : List Trade) (c : Candle) :
    (process_exits active c).1.length + (process_exits active c).2.1.length = active.length := by
  have h := exits_fold_len c active ([], [], 0)
  simpa [process_exits] using h

/-- One simulator step keeps closed + active within the trade cap. -/
theorem sim_step_card (cfg : Config) (signals : List SignalData) (maxT : ℕ) (clock : ℕ → ℤ)
    (st : SimState) (c : Candle)
    (h : st.trades.length + st.active.length ≤ maxT) :
    (sim_step cfg signals maxT clock st c).trades.length +
      (sim_step cfg signals maxT clock st c).active.length ≤ maxT := by
  have hpe := process_exits_len st.active c
  simp only [sim_step]
  split_ifs with hcond
  · rcases hcond with ⟨hact, hcap⟩
    rcases hLk : lookup_signal signals c.timestamp with _ | sig
    · simp only [hLk]
      simp only [List.length_append] at hcap ⊢
      omega
    · simp only [hLk]
      rcases hCr : create_trade cfg sig c (st.capital + (process_exits st.active c).2.2)
          (clock st.tcount) with _ | tr
      · simp only [hCr]
        simp only [List.length_append] at hcap ⊢
        omega
      · simp only [hCr]
        simp only [List.length_append, List.length_singleton, List.length_cons,
          List.length_nil] at hcap hact ⊢
        omega
  · simp only [List.length_append]
    omega

/-- The whole candle loop keeps closed + active within the trade cap. -/
theorem sim_fold_card (cfg : Config) (signals : List SignalData) (maxT : ℕ) (clock : ℕ → ℤ) :
    ∀ (candles : List Candle) (st : SimState),
      st.trades.length + st.active.length ≤ maxT →
      (candles.foldl (sim_step cfg signals maxT clock) st).trades.length +
        (candles.foldl (sim_step cfg signals maxT clock) st).active.length ≤ maxT := by
  intro candles
  induction candles with
  | nil => intro st h; simpa using h
  | cons c cs ih =>
    intro st h
    rw [List.foldl_cons]
    exact ih _ (sim_step_card cfg signals maxT clock st c h)

/-- C5: the simulation produces at most max_trades trades, and on the
concrete two-signal scenario with max_trades = 1 exactly one trade is
produced (the later signal is discarded). -/
theorem claim_C5 :
    (∀ (cfg : Config) (candles : List Candle) (signals : List SignalData)
      (params : Params) (clock : ℕ → ℤ),
      (execute_backtest cfg candles signals params clock).length ≤ params.max_trades) ∧
    (execute_backtest {} c5Candles [c5Sig1, c5Sig2] c5Params (fun _ => 0)).length = 1 := by
  constructor
  · intro cfg candles signals params clock
    have h : (execute_backtest_sim cfg candles signals params clock).trades.length +
        (execute_backtest_sim cfg candles signals params clock).active.length ≤
          params.max_trades := by
      unfold execute_backtest_sim
      exact sim_fold_card cfg signals params.max_trades clock candles
        { trades := [], active := [], capital := params.initial_capital, tcount := 0 } (by simp)
    unfold execute_backtest
    rcases hl : candles.getLast? with _ | last <;> simp only [hl]
    · omega
    · simp only [List.length_append, List.length_map]
      omega
  · with_unfolding_all decide

/-- The pnl carried by an exit record is calculate_pnl of the trade at
the record's own exit price. -/
theorem check_exit_pnl (tr : Trade) (c : Candle) (info : ExitInfo)
    (h : check_exit_conditions tr c = some info) :
    info.pnl = calculate_pnl tr info.exit_price := by
  simp only [check_exit_conditions] at h
  split_ifs at h <;>
  · replace h := (Option.some.inj h).symm
    subst h
    rfl

/-- A trade closed at a price with its calculate_pnl satisfies the
specification's PnL formula read off its recorded exit price. -/
theorem close_trade_formula (tr : Trade) (ts : ℤ) (price : ℚ) (reason : ExitReason) :
    (close_trade_at tr ts price (calculate_pnl tr price) reason).pnl =
      some (pnl_formula (close_trade_at tr ts price (calculate_pnl tr price) reason)) := by
  unfold close_trade_at pnl_formula calculate_pnl
  dsimp only
  cases htd : tr.direction <;> simp [htd]

/-- Every trade the exit loop closes satisfies the PnL formula. -/
theorem exits_fold_formula (c : Candle) :
    ∀ (l : List Trade) (acc : List Trade × List Trade × ℚ),
      (∀ t ∈ acc.1, t.pnl = some (pnl_formula t)) →
      ∀ t ∈ (l.foldl (exit_fold_step c) acc).1, t.pnl = some (pnl_formula t) := by
  intro l
  induction l with
  | nil => intro acc hacc; simpa using hacc
  | cons tr ls ih =>
    intro acc hacc
    rw [List.foldl_cons]
    apply ih
    unfold exit_fold_step
    rcases hex : check_exit_conditions tr c with _ | info
    · exact hacc
    · intro t ht
      rcases List.mem_append.1 ht with h1 | h2
      · exact hacc t h1
      · have ht2 : t = close_trade_at tr c.timestamp info.exit_price info.pnl info.exit_reason := by
          simpa using h2
        subst ht2
        rw [check_exit_pnl tr c info hex]
        exact close_trade_formula tr c.timestamp info.exit_price info.exit_reason

/-- The closed-trade list after one simulator step is the previous one
plus the trades the exit loop closed at this candle. -/
theorem sim_step_trades (cfg : Config) (signals : List SignalData) (maxT : ℕ)
    (clock : ℕ → ℤ) (st : SimState) (c : Candle) :
    (sim_step cfg signals maxT clock st c).trades =
      st.trades ++ (process_exits st.active c).1 := by
  simp only [sim_step]
  split_ifs with h
  · split <;> first
      | rfl
      | (split <;> rfl)
  · rfl

/-- Closed trades of the candle loop all satisfy the PnL formula. -/
theorem sim_fold_formula (cfg : Config) (signals : List SignalData) (maxT : ℕ)
    (clock : ℕ → ℤ) :
    ∀ (candles : List Candle) (st : SimState),
      (∀ t ∈ st.trades, t.pnl = some (pnl_formula t)) →
      ∀ t ∈ (candles.foldl (sim_step cfg signals maxT clock) st).trades,
        t.pnl = some (pnl_formula t) := by
  intro candles
  induction candles with
  | nil => intro st h; simpa using h
  | cons c cs ih =>
    intro st h
    rw [List.foldl_cons]
    apply ih
    rw [sim_step_trades]
    intro t ht
    rcases List.mem_append.1 ht with h1 | h2
    · exact h t h1
    · exact exits_fold_formula c st.active ([], [], 0) (by simp) t h2

/-- C4: every trade returned by the simulation carries pnl equal to
size × (exit − entry)/entry for a long and size × (entry − exit)/entry
for a short, computed at its recorded exit price. -/
theorem claim_C4 (cfg : Config) (candles : List Candle) (signals : List SignalData)
    (params : Params) (clock : ℕ → ℤ) (t : Trade)
    (hmem : t ∈ execute_backtest cfg candles signals params clock)
    (hpos : 0 < t.entry_price) :
    t.pnl = some (pnl_formula t) := by
  unfold execute_backtest at hmem
  rcases hl : candles.getLast? with _ | last <;> rw [hl] at hmem
  · exact sim_fold_formula cfg signals params.max_trades clock candles _ (by simp) t hmem
  · rcases List.mem_append.1 hmem with h1 | h2
    · exact sim_fold_formula cfg signals params.max_trades clock candles _ (by simp) t h1
    · rcases List.mem_map.1 h2 with ⟨tr, _, rfl⟩
      exact close_trade_formula tr last.timestamp last.close ExitReason.manual

/-- C4 witness: the C5 scenario's take-profit trade has pnl
10 = 500 × (102 − 100)/100. -/
theorem claim_C4_witness :
    c4Trade ∈ execute_backtest {} c5Candles [c5Sig1, c5Sig2] c5Params (fun _ => 0) ∧
    (0 : ℚ) < c4Trade.entry_price ∧
    c4Trade.pnl = some (pnl_formula c4Trade) := by
  have hmem : c4Trade ∈ execute_backtest {} c5Candles [c5Sig1, c5Sig2] c5Params (fun _ => 0) := by
    with_unfolding_all decide
  exact ⟨hmem, by norm_num [c4Trade],
    claim_C4 {} c5Candles [c5Sig1, c5Sig2] c5Params (fun _ => 0) c4Trade hmem
      (by norm_num [c4Trade])⟩

/-- Two trades equal after id-scrubbing agree in every other field. -/
theorem strip_id_fields (t1 t2 : Trade) (h : strip_id t1 = strip_id t2) :
    t1.entry_time = t2.entry_time ∧ t1.direction = t2.direction ∧
    t1.entry_price = t2.entry_price ∧ t1.size = t2.size ∧
    t1.take_profit = t2.take_profit ∧ t1.stop_loss = t2.stop_loss ∧
    t1.exit_time = t2.exit_time ∧ t1.exit_price = t2.exit_price ∧
    t1.pnl = t2.pnl ∧ t1.exit_reason = t2.exit_reason ∧
    t1.duration_minutes = t2.duration_minutes := by
  unfold strip_id at h
  injection h with h0 h1 h2 h3 h4 h5 h6 h7 h8 h9 h10 h11
  exact ⟨h1, h2, h3, h4, h5, h6, h7, h8, h9, h10, h11⟩

/-- calculate_pnl ignores the trade id. -/
theorem calculate_pnl_strip (t1 t2 : Trade) (p : ℚ) (h : strip_id t1 = strip_id t2) :
    calculate_pnl t1 p = calculate_pnl t2 p := by
  obtain ⟨_, hd, hp, hs, _, _, _⟩ := strip_id_fields t1 t2 h
  unfold calculate_pnl
  rw [hd, hp, hs]

/-- check_exit_conditions ignores the trade id. -/
theorem check_exit_strip (t1 t2 : Trade) (c : Candle) (h : strip_id t1 = strip_id t2) :
    check_exit_conditions t1 c = check_exit_conditions t2 c := by
  obtain ⟨_, hd, hp, hs, htp, hsl, _⟩ := strip_id_fields t1 t2 h
  unfold check_exit_conditions calculate_pnl
  rw [hd, hp, hs, htp, hsl]

/-- Closing two id-scrubbed-equal trades the same way gives
id-scrubbed-equal results. -/
theorem close_trade_strip (t1 t2 : Trade) (ts : ℤ) (p pnl : ℚ) (r : ExitReason)
    (h : strip_id t1 = strip_id t2) :
    strip_id (close_trade_at t1 ts p pnl r) = strip_id (close_trade_at t2 ts p pnl r) := by
  obtain ⟨he, hd, hp, hs, htp, hsl, _, _, _, _, _⟩ := strip_id_fields t1 t2 h
  unfold strip_id close_trade_at
  rw [he, hd, hp, hs, htp, hsl]

/-- The exit loop ignores trade ids: related active lists give related
closed lists, survivor lists, and identical credited PnL. -/
theorem exits_fold_strip (c : Candle) :
    ∀ (l1 l2 : List Trade), l1.map strip_id = l2.map strip_id →
    ∀ (a1 a2 : List Trade × List Trade × ℚ),
      a1.1.map strip_id = a2.1.map strip_id → a1.2.1.map strip_id = a2.2.1.map strip_id →
      a1.2.2 = a2.2.2 →
      (l1.foldl (exit_fold_step c) a1).1.map strip_id =
          (l2.foldl (exit_fold_step c) a2).1.map strip_id ∧
        (l1.foldl (exit_fold_step c) a1).2.1.map strip_id =
          (l2.foldl (exit_fold_step c) a2).2.1.map strip_id ∧
        (l1.foldl (exit_fold_step c) a1).2.2 = (l2.foldl (exit_fold_step c) a2).2.2 := by
  intro l1
  induction l1 with
  | nil =>
    intro l2 hl a1 a2 h1 h2 h3
    have : l2 = [] := by simpa using hl.symm
    subst this
    exact ⟨h1, h2, h3⟩
  | cons t1 ls1 ih =>
    intro l2 hl a1 a2 h1 h2 h3
    rcases l2 with _ | ⟨t2, ls2⟩
    · simp at hl
    · rw [List.map_cons, List.map_cons] at hl
      have hh := List.cons.inj hl
      rw [List.foldl_cons, List.foldl_cons]
      apply ih ls2 hh.2
      all_goals
        unfold exit_fold_step
        rw [check_exit_strip t1 t2 c hh.1]
        rcases check_exit_conditions t2 c with _ | info
      · simpa using h1
      · simp only [List.map_append, h1, List.map_cons, List.map_nil]
        rw [close_trade_strip t1 t2 c.timestamp info.exit_price info.pnl info.exit_reason hh.1]
      · simp only [List.map_append, h2, List.map_cons, List.map_nil]
        rw [hh.1]
      · exact h2
      · exact h3
      · rw [h3]

/-- process_exits ignores trade ids. -/
theorem process_exits_strip (c : Candle) (l1 l2 : List Trade)
    (hl : l1.map strip_id = l2.map strip_id) :
    (process_exits l1 c).1.map strip_id = (process_exits l2 c).1.map strip_id ∧
    (process_exits l1 c).2.1.map strip_id = (process_exits l2 c).2.1.map strip_id ∧
    (process_exits l1 c).2.2 = (process_exits l2 c).2.2 :=
  exits_fold_strip c l1 l2 hl ([], [], 0) ([], [], 0) rfl rfl rfl

/-- create_trade differs between two clock instants only in the id. -/
theorem create_trade_strip (cfg : Config) (sig : SignalData) (c : Candle) (cap : ℚ)
    (n1 n2 : ℤ) :
    (create_trade cfg sig c cap n1).map strip_id =
      (create_trade cfg sig c cap n2).map strip_id := by
  simp only [create_trade]
  cases hd : sig.direction with
  | none =>
    dsimp only
  | some d =>
    dsimp only
    split_ifs <;> try rfl

/-- The length of a list is determined by its id-scrubbed image. -/
theorem strip_len (l1 l2 : List Trade) (h : l1.map strip_id = l2.map strip_id) :
    l1.length = l2.length := by
  have := congrArg List.length h
  simpa using this

/-- One simulator step preserves the everything-but-ids relation, even
under different wall clocks. -/
theorem sim_step_strip (cfg : Config) (signals : List SignalData) (maxT : ℕ)
    (clock1 clock2 : ℕ → ℤ) (st1 st2 : SimState) (c : Candle) (h : SimRel st1 st2) :
    SimRel (sim_step cfg signals maxT clock1 st1 c) (sim_step cfg signals maxT clock2 st2 c) := by
  obtain ⟨htr, hact, hcap, htc⟩ := h
  obtain ⟨hpe1, hpe2, hpe3⟩ := process_exits_strip c st1.active st2.active hact
  have htr1 : (st1.trades ++ (process_exits st1.active c).1).map strip_id =
      (st2.trades ++ (process_exits st2.active c).1).map strip_id := by
    rw [List.map_append, List.map_append, htr, hpe1]
  have hcap1 : st1.capital + (process_exits st1.active c).2.2 =
      st2.capital + (process_exits st2.active c).2.2 := by
    rw [hcap, hpe3]
  have hLact : (process_exits st1.active c).2.1.length = (process_exits st2.active c).2.1.length :=
    strip_len _ _ hpe2
  have hLtr : (st1.trades ++ (process_exits st1.active c).1).length =
      (st2.trades ++ (process_exits st2.active c).1).length := strip_len _ _ htr1
  simp only [sim_step]
  by_cases hcond : (process_exits st1.active c).2.1.length = 0 ∧
      (st1.trades ++ (process_exits st1.active c).1).length < maxT
  · rw [if_pos hcond, if_pos (by rw [← hLact, ← hLtr]; exact hcond)]
    rcases hLk : lookup_signal signals c.timestamp with _ | sig
    · exact ⟨htr1, hpe2, hcap1, htc⟩
    · dsimp only
      have hmc := create_trade_strip cfg sig c (st1.capital + (process_exits st1.active c).2.2)
        (clock1 st1.tcount) (clock2 st2.tcount)
      nth_rewrite 2 [hcap1] at hmc
      rcases hcr1 : create_trade cfg sig c (st1.capital + (process_exits st1.active c).2.2)
          (clock1 st1.tcount) with _ | tr1 <;>
        rcases hcr2 : create_trade cfg sig c (st2.capital + (process_exits st2.active c).2.2)
            (clock2 st2.tcount) with _ | tr2 <;>
        rw [hcr1, hcr2] at hmc
      · exact ⟨htr1, hpe2, hcap1, htc⟩
      · simp at hmc
      · simp at hmc
      · have hstr : strip_id tr1 = strip_id tr2 := Option.some.inj (by simpa using hmc)
        have hsz : tr1.size = tr2.size := (strip_id_fields tr1 tr2 hstr).2.2.2.1
        refine ⟨htr1, ?_, ?_, by rw [htc]⟩
        · rw [List.map_append, List.map_append, hpe2, List.map_cons, List.map_cons,
            List.map_nil, hstr]
        · dsimp only
          rw [hcap1, hsz]
  · rw [if_neg hcond, if_neg (by rw [← hLact, ← hLtr]; exact hcond)]
    exact ⟨htr1, hpe2, hcap1, htc⟩

/-- The candle loop preserves the everything-but-ids relation. -/
theorem sim_fold_strip (cfg : Config) (signals : List SignalData) (maxT : ℕ)
    (clock1 clock2 : ℕ → ℤ) :
    ∀ (candles : List Candle) (st1 st2 : SimState), SimRel st1 st2 →
      SimRel (candles.foldl (sim_step cfg signals maxT clock1) st1)
        (candles.foldl (sim_step cfg signals maxT clock2) st2) := by
  intro candles
  induction candles with
  | nil => intro st1 st2 h; simpa using h
  | cons c cs ih =>
    intro st1 st2 h
    rw [List.foldl_cons, List.foldl_cons]
    exact ih _ _ (sim_step_strip cfg signals maxT clock1 clock2 st1 st2 c h)

/-- The force-close of the remaining active trades ignores ids. -/
theorem forced_close_strip (ts : ℤ) (p : ℚ) (r : ExitReason) :
    ∀ (l1 l2 : List Trade), l1.map strip_id = l2.map strip_id →
      ((l1.map (fun tr => close_trade_at tr ts p (calculate_pnl tr p) r)).map strip_id =
        (l2.map (fun tr => close_trade_at tr ts p (calculate_pnl tr p) r)).map strip_id) := by
  intro l1
  induction l1 with
  | nil =>
    intro l2 hl
    have : l2 = [] := by simpa using hl.symm
    subst this
    rfl
  | cons t1 ls1 ih =>
    intro l2 hl
    rcases l2 with _ | ⟨t2, ls2⟩
    · simp at hl
    · rw [List.map_cons, List.map_cons] at hl
      have hh := List.cons.inj hl
      simp only [List.map_cons]
      rw [ih ls2 hh.2, calculate_pnl_strip t1 t2 p hh.1,
        close_trade_strip t1 t2 ts p (calculate_pnl t2 p) r hh.1]

/-- The whole simulation's trade list, id-scrubbed, does not depend on
the wall clock. -/
theorem execute_backtest_strip (cfg : Config) (candles : List Candle)
    (signals : List SignalData) (params : Params) (clock1 clock2 : ℕ → ℤ) :
    (execute_backtest cfg candles signals params clock1).map strip_id =
      (execute_backtest cfg candles signals params clock2).map strip_id := by
  have hrel : SimRel (execute_backtest_sim cfg candles signals params clock1)
      (execute_backtest_sim cfg candles signals params clock2) := by
    unfold execute_backtest_sim
    exact sim_fold_strip cfg signals params.max_trades clock1 clock2 candles _ _
      ⟨rfl, rfl, rfl, rfl⟩
  obtain ⟨htr, hact, _, _⟩ := hrel
  unfold execute_backtest
  rcases candles.getLast? with _ | last
  · exact htr
  · rw [List.map_append, List.map_append, htr,
      forced_close_strip last.timestamp last.close ExitReason.manual _ _ hact]

/-- pnlD ignores the trade id. -/
theorem pnlD_strip (t : Trade) : pnlD (strip_id t) = pnlD t := rfl

/-- consecutive-streak counting ignores trade ids. -/
theorem consecutiveAux_strip :
    ∀ (l : List Trade) (cw cl mw ml : ℕ),
      consecutiveAux (l.map strip_id) cw cl mw ml = consecutiveAux l cw cl mw ml := by
  intro l
  induction l with
  | nil => intro cw cl mw ml; rfl
  | cons t ts ih =>
    intro cw cl mw ml
    rw [List.map_cons]
    unfold consecutiveAux
    rw [pnlD_strip]
    split_ifs <;> apply ih

/-- The statistics of an id-scrubbed trade list equal those of the
original list: no statistic reads the id. -/
theorem calc_statistics_strip (l : List Trade) (cap : ℚ) :
    calc_statistics (l.map strip_id) cap = calc_statistics l cap := by
  unfold calc_statistics
  rw [consecutiveAux_strip]
  simp only [List.filter_map, List.map_map, List.length_map, List.map_eq_nil_iff,
    Function.comp_def, pnlD_strip]
  rfl

/-- The sum of nonzero pnls ignores trade ids. -/
theorem pnl_sum_strip (l1 l2 : List Trade) (h : l1.map strip_id = l2.map strip_id) :
    ((l1.filter (fun t => pnlD t ≠ 0)).map pnlD).sum =
      ((l2.filter (fun t => pnlD t ≠ 0)).map pnlD).sum := by
  have key : ∀ (l : List Trade),
      ((l.map strip_id).filter (fun t => pnlD t ≠ 0)).map pnlD =
        (l.filter (fun t => pnlD t ≠ 0)).map pnlD := by
    intro l
    simp only [List.filter_map, List.map_map, Function.comp_def, pnlD_strip]
  rw [← key l1, ← key l2, h]

/-- C8 (corrected): two runs on the same candles and params agree on
every trade field except the wall-clock-derived id, and agree exactly on
the statistics, the final capital, and the success flag. -/
theorem claim_C8 (cfg : Config) (candles : List Candle) (params : Params)
    (clock1 clock2 : ℕ → ℤ) :
    (run_backtest cfg candles params clock1).trades.map strip_id =
        (run_backtest cfg candles params clock2).trades.map strip_id ∧
      (run_backtest cfg candles params clock1).statistics =
        (run_backtest cfg candles params clock2).statistics ∧
      (run_backtest cfg candles params clock1).final_capital =
        (run_backtest cfg candles params clock2).final_capital ∧
      (run_backtest cfg candles params clock1).success =
        (run_backtest cfg candles params clock2).success := by
  have hexec := execute_backtest_strip cfg candles
    (detect_signals_all cfg candles params) params clock1 clock2
  have hstats : calc_statistics
        (execute_backtest cfg candles (detect_signals_all cfg candles params) params clock1)
        params.initial_capital =
      calc_statistics
        (execute_backtest cfg candles (detect_signals_all cfg candles params) params clock2)
        params.initial_capital := by
    rw [← calc_statistics_strip
      (execute_backtest cfg candles (detect_signals_all cfg candles params) params clock1),
      ← calc_statistics_strip
      (execute_backtest cfg candles (detect_signals_all cfg candles params) params clock2),
      hexec]
  simp only [run_backtest]
  split_ifs with hsig
  · exact ⟨rfl, rfl, rfl, rfl⟩
  · exact ⟨hexec, hstats, by rw [pnl_sum_strip _ _ hexec], rfl⟩

/-- C8 counterexample: the same (candles, params) run at wall-clock 0
and at wall-clock 1 produces different trade lists (the ids differ), so
reruns are not bit-identical in every Trade field. -/
theorem claim_C8_counterexample :
    (run_backtest demoCfg demoCandles demoParams (fun _ => 0)).trades ≠
      (run_backtest demoCfg demoCandles demoParams (fun _ => 1)).trades := by
  with_unfolding_all decide

/-- Any relation holds pairwise on a list of at most one element. -/
theorem pairwise_of_len_le_one {R : Trade → Trade → Prop} (l : List Trade)
    (h : l.length ≤ 1) : l.Pairwise R := by
  rcases l with _ | ⟨a, rest⟩
  · exact List.Pairwise.nil
  · rcases rest with _ | ⟨x, xs⟩
    · simp
    · simp at h

/-- A created trade enters at its candle's timestamp and is open. -/
theorem create_trade_entry (cfg : Config) (sig : SignalData) (candle : Candle)
    (cap : ℚ) (now : ℤ) (tr : Trade)
    (h : create_trade cfg sig candle cap now = some tr) :
    tr.entry_time = candle.timestamp ∧ tr.exit_time = none := by
  simp only [create_trade] at h
  by_cases hps : calculate_position_size cfg sig candle cap ≤ 0
  · rw [if_pos hps] at h
    exact absurd h (by simp)
  · rw [if_neg hps] at h
    rcases hd : sig.direction with _ | d
    · rw [hd] at h
      exact absurd h (by simp)
    · rw [hd] at h
      dsimp only at h
      split_ifs at h <;>
      · replace h := (Option.some.inj h).symm
        subst h
        exact ⟨rfl, rfl⟩

/-- One simulator step keeps at most one trade active. -/
theorem sim_step_active_len (cfg : Config) (signals : List SignalData) (maxT : ℕ)
    (clock : ℕ → ℤ) (st : SimState) (c : Candle) (h : st.active.length ≤ 1) :
    (sim_step cfg signals maxT clock st c).active.length ≤ 1 := by
  have hpe := process_exits_len st.active c
  simp only [sim_step]
  split_ifs with hcond
  · rcases hLk : lookup_signal signals c.timestamp with _ | sig
    · dsimp only
      omega
    · dsimp only
      rcases hCr : create_trade cfg sig c (st.capital + (process_exits st.active c).2.2)
          (clock st.tcount) with _ | tr
      · dsimp only
        omega
      · simp only [List.length_append, List.length_singleton]
        omega
  · dsimp only
    omega

/-- The candle loop keeps at most one trade active at every step. -/
theorem sim_fold_active_len (cfg : Config) (signals : List SignalData) (maxT : ℕ)
    (clock : ℕ → ℤ) :
    ∀ (cs : List Candle) (st : SimState), st.active.length ≤ 1 →
      (cs.foldl (sim_step cfg signals maxT clock) st).active.length ≤ 1 := by
  intro cs
  induction cs with
  | nil => intro st h; simpa using h
  | cons c cs ih =>
    intro st h
    rw [List.foldl_cons]
    exact ih _ (sim_step_active_len cfg signals maxT clock st c h)

/-- One simulator step preserves the chained-trades invariant: closed
trades end by the candle's time, close before any active trade's entry,
and are chronologically chained. -/
theorem sim_step_chain (cfg : Config) (signals : List SignalData) (maxT : ℕ) (clock : ℕ → ℤ)
    (st : SimState) (c : Candle) (bound : ℤ)
    (h1 : st.active.length ≤ 1)
    (h2 : ∀ a ∈ st.trades, endTime a ≤ bound)
    (h4 : ∀ a ∈ st.trades, ∀ b ∈ st.active, endTime a ≤ b.entry_time)
    (h5 : st.trades.Pairwise (fun a b => endTime a ≤ b.entry_time))
    (hb : bound < c.timestamp) :
    (∀ a ∈ (sim_step cfg signals maxT clock st c).trades, endTime a ≤ c.timestamp) ∧
    (∀ a ∈ (sim_step cfg signals maxT clock st c).trades,
      ∀ b ∈ (sim_step cfg signals maxT clock st c).active, endTime a ≤ b.entry_time) ∧
    (sim_step cfg signals maxT clock st c).trades.Pairwise
      (fun a b => endTime a ≤ b.entry_time) := by
  have h2' : ∀ a ∈ st.trades, endTime a ≤ c.timestamp := fun a ha =>
    le_of_lt (lt_of_le_of_lt (h2 a ha) hb)
  rcases hact : st.active with _ | ⟨b0, brest⟩
  · have hpe : process_exits st.active c = ([], [], 0) := by rw [hact]; rfl
    simp only [sim_step, hpe, List.append_nil]
    split_ifs with hcond
    · rcases hLk : lookup_signal signals c.timestamp with _ | sig
      · exact ⟨h2', by simp, h5⟩
      · dsimp only
        rcases hCr : create_trade cfg sig c (st.capital + 0) (clock st.tcount) with _ | tr
        · exact ⟨h2', by simp, h5⟩
        · obtain ⟨hentry, _⟩ := create_trade_entry cfg sig c (st.capital + 0) (clock st.tcount)
            tr hCr
          refine ⟨h2', ?_, h5⟩
          intro a ha b hbmem
          rcases List.mem_append.1 hbmem with hcontra | hsing
          · simp at hcontra
          · have : b = tr := by simpa using hsing
            subst this
            rw [hentry]
            exact h2' a ha
    · exact ⟨h2', by simp, h5⟩
  · have hrest : brest = [] := by
      rcases brest with _ | ⟨x, xs⟩
      · rfl
      · rw [hact] at h1
        simp at h1
    subst hrest
    have hb0mem : b0 ∈ st.active := by rw [hact]; simp
    rcases hex : check_exit_conditions b0 c with _ | info
    · have hpe : process_exits st.active c = ([], [b0], 0) := by
        rw [hact]
        simp [process_exits, exit_fold_step, hex]
      simp only [sim_step, hpe, List.append_nil]
      split_ifs with hcond
      · exact absurd hcond.1 (by simp)
      · refine ⟨h2', ?_, h5⟩
        intro a ha b hbmem
        have hbb : b = b0 := by simpa using hbmem
        rw [hbb]
        exact h4 a ha b0 hb0mem
    · have hpe : process_exits st.active c =
          ([close_trade_at b0 c.timestamp info.exit_price info.pnl info.exit_reason],
            [], info.pnl) := by
        rw [hact]
        simp [process_exits, exit_fold_step, hex]
      have hcl_end : endTime
          (close_trade_at b0 c.timestamp info.exit_price info.pnl info.exit_reason) =
            c.timestamp := rfl
      have hcl_entry :
          (close_trade_at b0 c.timestamp info.exit_price info.pnl info.exit_reason).entry_time =
            b0.entry_time := rfl
      have htb1 : ∀ a ∈ st.trades ++
          [close_trade_at b0 c.timestamp info.exit_price info.pnl info.exit_reason],
            endTime a ≤ c.timestamp := by
        intro a ha
        rcases List.mem_append.1 ha with h' | h'
        · exact h2' a h'
        · have : a = close_trade_at b0 c.timestamp info.exit_price info.pnl info.exit_reason := by
            simpa using h'
          subst this
          rw [hcl_end]
      have hpair1 : (st.trades ++
          [close_trade_at b0 c.timestamp info.exit_price info.pnl info.exit_reason]).Pairwise
            (fun a b => endTime a ≤ b.entry_time) := by
        rw [List.pairwise_append]
        refine ⟨h5, by simp, ?_⟩
        intro a ha b hbmem
        have : b = close_trade_at b0 c.timestamp info.exit_price info.pnl info.exit_reason := by
          simpa using hbmem
        subst this
        rw [hcl_entry]
        exact h4 a ha b0 hb0mem
      simp only [sim_step, hpe]
      split_ifs with hcond
      · rcases hLk : lookup_signal signals c.timestamp with _ | sig
        · exact ⟨htb1, by simp, hpair1⟩
        · dsimp only
          rcases hCr : create_trade cfg sig c
              (st.capital + info.pnl) (clock st.tcount) with _ | tr
          · exact ⟨htb1, by simp, hpair1⟩
          · obtain ⟨hentry, _⟩ := create_trade_entry cfg sig c (st.capital + info.pnl)
              (clock st.tcount) tr hCr
            refine ⟨htb1, ?_, hpair1⟩
            intro a ha b hbmem
            rcases List.mem_append.1 hbmem with hcontra | hsing
            · simp at hcontra
            · have : b = tr := by simpa using hsing
              subst this
              rw [hentry]
              exact htb1 a ha
      · exact ⟨htb1, by simp, hpair1⟩

/-- The candle loop, run on chronologically increasing candles that all
come after every closed trade, preserves the chained-trades invariant. -/
theorem sim_fold_chain (cfg : Config) (signals : List SignalData) (maxT : ℕ) (clock : ℕ → ℤ) :
    ∀ (cs : List Candle) (st : SimState) (bound : ℤ),
      cs.Pairwise (fun a b => a.timestamp < b.timestamp) →
      (∀ c ∈ cs, bound < c.timestamp) →
      st.active.length ≤ 1 →
      (∀ a ∈ st.trades, endTime a ≤ bound) →
      (∀ a ∈ st.trades, ∀ b ∈ st.active, endTime a ≤ b.entry_time) →
      st.trades.Pairwise (fun a b => endTime a ≤ b.entry_time) →
      ((∀ a ∈ (cs.foldl (sim_step cfg signals maxT clock) st).trades,
          ∀ b ∈ (cs.foldl (sim_step cfg signals maxT clock) st).active,
            endTime a ≤ b.entry_time) ∧
        (cs.foldl (sim_step cfg signals maxT clock) st).trades.Pairwise
          (fun a b => endTime a ≤ b.entry_time) ∧
        (cs.foldl (sim_step cfg signals maxT clock) st).active.length ≤ 1) := by
  intro cs
  induction cs with
  | nil =>
    intro st bound _ _ hlen _ hcross hpair
    exact ⟨hcross, hpair, hlen⟩
  | cons c cs ih =>
    intro st bound hmono hbound hlen hbd hcross hpair
    rw [List.foldl_cons]
    have hb : bound < c.timestamp := hbound c (by simp)
    obtain ⟨hs2, hs4, hs5⟩ :=
      sim_step_chain cfg signals maxT clock st c bound hlen hbd hcross hpair hb
    have hmono' := (List.pairwise_cons.1 hmono)
    exact ih _ c.timestamp hmono'.2 hmono'.1
      (sim_step_active_len cfg signals maxT clock st c hlen) hs2 hs4 hs5

/-- C2: on a chronologically increasing candle series the produced trade
list is pairwise non-overlapping on [entry_time, exit_time) — and at most
one trade is active after any prefix of the candle loop. -/
theorem claim_C2 (cfg : Config) (candles : List Candle) (signals : List SignalData)
    (params : Params) (clock : ℕ → ℤ)
    (hmono : candles.Pairwise (fun c1 c2 => c1.timestamp < c2.timestamp)) :
    (execute_backtest cfg candles signals params clock).Pairwise no_overlap ∧
    ∀ k, ((candles.take k).foldl (sim_step cfg signals params.max_trades clock)
        { trades := [], active := [], capital := params.initial_capital,
          tcount := 0 }).active.length ≤ 1 := by
  constructor
  · rcases hcs : candles with _ | ⟨c0, rest⟩
    · simp [execute_backtest, execute_backtest_sim]
    · rw [← hcs]
      have hall : ∀ c ∈ candles, c0.timestamp - 1 < c.timestamp := by
        intro c hc
        rw [hcs] at hc
        rcases List.mem_cons.1 hc with h' | h'
        · subst h'
          omega
        · have := (List.pairwise_cons.1 (hcs ▸ hmono)).1 c h'
          omega
      obtain ⟨hcross, hpair, hlen⟩ := sim_fold_chain cfg signals params.max_trades clock
        candles { trades := [], active := [], capital := params.initial_capital, tcount := 0 }
        (c0.timestamp - 1) hmono hall (by simp) (by simp) (by simp) (by simp)
      have hchain : (execute_backtest cfg candles signals params clock).Pairwise
          (fun a b => endTime a ≤ b.entry_time) := by
        unfold execute_backtest execute_backtest_sim
        rcases hl : candles.getLast? with _ | last
        · exact hpair
        · rw [List.pairwise_append]
          refine ⟨hpair, ?_, ?_⟩
          · apply pairwise_of_len_le_one
            rw [List.length_map]
            exact hlen
          · intro a ha b hbmem
            rcases List.mem_map.1 hbmem with ⟨tr, htr, rfl⟩
            exact hcross a ha tr htr
      exact hchain.imp (fun hab => Or.inl hab)
  · intro k
    exact sim_fold_active_len cfg signals params.max_trades clock (candles.take k) _ (by simp)

/-- C2 witness: the concrete two-signal scenario run has pairwise
non-overlapping trades. -/
theorem claim_C2_witness :
    (execute_backtest {} c5Candles [c5Sig1, c5Sig2] c5Params (fun _ => 0)).Pairwise
      no_overlap := by
  have hmono : c5Candles.Pairwise (fun c1 c2 => c1.timestamp < c2.timestamp) := by
    unfold c5Candles
    norm_num
  exact (claim_C2 {} c5Candles [c5Sig1, c5Sig2] c5Params (fun _ => 0) hmono).1

/-- Length of a flat series. -/
theorem flat_length (n : ℕ) (p v : ℚ) (t0 dt : ℤ) :
    (flat_series n p v t0 dt).length = n := by
  unfold flat_series
  rw [List.length_map, List.length_range]

/-- Indexing a flat series. -/
theorem flat_getD (n : ℕ) (p v : ℚ) (t0 dt : ℤ) (i : ℕ) (d : Candle) (hi : i < n) :
    (flat_series n p v t0 dt).getD i d = flat_candle p v (t0 + i * dt) := by
  unfold flat_series
  have hlen : i <
      ((List.range n).map (fun j : ℕ => flat_candle p v (t0 + (j : ℤ) * dt))).length := by
    rw [List.length_map, List.length_range]
    exact hi
  rw [List.getD_eq_getElem _ _ hlen, List.getElem_map, List.getElem_range]

/-- The volume of every bar of a flat series. -/
theorem flat_volumeAt (n : ℕ) (p v : ℚ) (t0 dt : ℤ) (i : ℕ) (hi : i < n) :
    volumeAt (flat_series n p v t0 dt) i = v := by
  unfold volumeAt
  rw [flat_getD n p v t0 dt i _ hi]
  rfl

/-- The close of every bar of a flat series. -/
theorem flat_closeAt (n : ℕ) (p v : ℚ) (t0 dt : ℤ) (i : ℕ) (hi : i < n) :
    closeAt (flat_series n p v t0 dt) i = p := by
  unfold closeAt
  rw [flat_getD n p v t0 dt i _ hi]
  rfl

/-- The open of every bar of a flat series. -/
theorem flat_openAt (n : ℕ) (p v : ℚ) (t0 dt : ℤ) (i : ℕ) (hi : i < n) :
    openAt (flat_series n p v t0 dt) i = p := by
  unfold openAt
  rw [flat_getD n p v t0 dt i _ hi]
  rfl

/-- The high of every bar of a flat series. -/
theorem flat_highAt (n : ℕ) (p v : ℚ) (t0 dt : ℤ) (i : ℕ) (hi : i < n) :
    highAt (flat_series n p v t0 dt) i = p := by
  unfold highAt
  rw [flat_getD n p v t0 dt i _ hi]
  rfl

/-- The low of every bar of a flat series. -/
theorem flat_lowAt (n : ℕ) (p v : ℚ) (t0 dt : ℤ) (i : ℕ) (hi : i < n) :
    lowAt (flat_series n p v t0 dt) i = p := by
  unfold lowAt
  rw [flat_getD n p v t0 dt i _ hi]
  rfl

/-- A rolling window over a series constant up to its end is a constant
window. -/
theorem rwinF_const (g : ℕ → ℚ) (v : ℚ) (w i : ℕ) (hg : ∀ j, j ≤ i → g j = v)
    (hw : w ≤ i + 1) :
    rwinF g w i = List.replicate w v := by
  unfold rwinF
  apply List.eq_replicate_iff.2
  refine ⟨by simp, ?_⟩
  intro b hb
  rcases List.mem_map.1 hb with ⟨k, hk, rfl⟩
  have hk' := List.mem_range.1 hk
  exact hg _ (by omega)

/-- The mean of a constant window. -/
theorem listMean_replicate (w : ℕ) (v : ℚ) (hw : 1 ≤ w) :
    listMean (List.replicate w v) = v := by
  unfold listMean
  rw [List.sum_replicate, List.length_replicate, nsmul_eq_mul]
  have hw0 : (w : ℚ) ≠ 0 := Nat.cast_ne_zero.2 (by omega)
  field_simp

/-- The sample variance of a constant window is zero. -/
theorem sampleVar_replicate (w : ℕ) (v : ℚ) (hw : 1 ≤ w) :
    sampleVar (List.replicate w v) = 0 := by
  unfold sampleVar
  rw [listMean_replicate w v hw, List.map_replicate]
  simp

/-- The maximum of a constant window. -/
theorem listMax_replicate (w : ℕ) (v : ℚ) (hw : 1 ≤ w) :
    listMax (List.replicate w v) = v := by
  have key : ∀ k, List.foldl max v (List.replicate k v) = v := by
    intro k
    induction k with
    | zero => rfl
    | succ m ih =>
      rw [List.replicate_succ, List.foldl_cons, max_self]
      exact ih
  rcases w with _ | w
  · omega
  · rw [List.replicate_succ]
    show List.foldl max v (List.replicate w v) = v
    exact key w

/-- The minimum of a constant window. -/
theorem listMin_replicate (w : ℕ) (v : ℚ) (hw : 1 ≤ w) :
    listMin (List.replicate w v) = v := by
  have key : ∀ k, List.foldl min v (List.replicate k v) = v := by
    intro k
    induction k with
    | zero => rfl
    | succ m ih =>
      rw [List.replicate_succ, List.foldl_cons, min_self]
      exact ih
  rcases w with _ | w
  · omega
  · rw [List.replicate_succ]
    show List.foldl min v (List.replicate w v) = v
    exact key w

/-- sqrtQ of zero is zero. -/
theorem sqrtQ_zero : sqrtQ 0 = 0 := by
  unfold sqrtQ
  norm_num

/-- Sequencing a constant some-window. -/
theorem seqOpt_replicate (w : ℕ) (x : ℚ) :
    seqOpt (List.replicate w (some x)) = some (List.replicate w x) := by
  induction w with
  | zero => rfl
  | succ k ih =>
    rw [List.replicate_succ, List.replicate_succ]
    unfold seqOpt
    rw [ih]
    rfl

/-- On a flat series the volume SMA at an in-loop bar is the constant
volume. -/
theorem flat_volume_sma (cfg : Config) (n : ℕ) (p v : ℚ) (t0 dt : ℤ) (i : ℕ)
    (hL1 : 1 ≤ cfg.lookback_period) (hLi : cfg.lookback_period ≤ i + 1) (hn : i < n) :
    volume_sma cfg (flat_series n p v t0 dt) i = some v := by
  unfold volume_sma
  rw [if_pos ⟨hL1, hLi, by rw [flat_length]; exact hn⟩]
  rw [rwinF_const (volumeAt (flat_series n p v t0 dt)) v cfg.lookback_period i
    (fun j hj => flat_volumeAt n p v t0 dt j (by omega)) hLi]
  rw [listMean_replicate _ _ hL1]

/-- On a flat series the rolling volume variance at an in-loop bar is 0. -/
theorem flat_volume_var (cfg : Config) (n : ℕ) (p v : ℚ) (t0 dt : ℤ) (i : ℕ)
    (hL2 : 2 ≤ cfg.lookback_period) (hLi : cfg.lookback_period ≤ i + 1) (hn : i < n) :
    volume_var cfg (flat_series n p v t0 dt) i = some 0 := by
  unfold volume_var
  rw [if_pos ⟨hL2, hLi, by rw [flat_length]; exact hn⟩]
  rw [rwinF_const (volumeAt (flat_series n p v t0 dt)) v cfg.lookback_period i
    (fun j hj => flat_volumeAt n p v t0 dt j (by omega)) hLi]
  rw [sampleVar_replicate _ _ (by omega)]

/-- On a flat series the rolling volume std at an in-loop bar is 0. -/
theorem flat_volume_volatility (cfg : Config) (n : ℕ) (p v : ℚ) (t0 dt : ℤ) (i : ℕ)
    (hL2 : 2 ≤ cfg.lookback_period) (hLi : cfg.lookback_period ≤ i + 1) (hn : i < n) :
    volume_volatility cfg (flat_series n p v t0 dt) i = some 0 := by
  unfold volume_volatility
  rw [flat_volume_var cfg n p v t0 dt i hL2 hLi hn]
  rw [Option.map_some']
  rw [sqrtQ_zero]

/-- On a flat series, once enough bars exist for the rolling mean of the
rolling std, that mean is 0. -/
theorem flat_vol_ma (cfg : Config) (n : ℕ) (p v : ℚ) (t0 dt : ℤ) (i : ℕ)
    (hL2 : 2 ≤ cfg.lookback_period) (hdeep : 2 * cfg.lookback_period ≤ i + 2) (hn : i < n) :
    vol_volatility_ma cfg (flat_series n p v t0 dt) i = some 0 := by
  unfold vol_volatility_ma
  rw [if_pos ⟨by omega, by omega, by rw [flat_length]; exact hn⟩]
  unfold rwinFO
  have hwin : (List.range cfg.lookback_period).map
      (fun k => volume_volatility cfg (flat_series n p v t0 dt)
        (i + 1 - cfg.lookback_period + k)) =
      List.replicate cfg.lookback_period (some 0) := by
    apply List.eq_replicate_iff.2
    refine ⟨by simp, ?_⟩
    intro b hb
    rcases List.mem_map.1 hb with ⟨k, hk, rfl⟩
    have hk' := List.mem_range.1 hk
    exact flat_volume_volatility cfg n p v t0 dt _ hL2 (by omega) (by omega)
  rw [hwin, seqOpt_replicate, Option.map_some', listMean_replicate _ _ (by omega)]

/-- On a flat series with positive volume the adaptive threshold, where
defined, is exactly the base multiplier. -/
theorem flat_threshold (cfg : Config) (n : ℕ) (p v : ℚ) (t0 dt : ℤ) (i : ℕ)
    (hv : v ≠ 0) (hL2 : 2 ≤ cfg.lookback_period) (hdeep : 2 * cfg.lookback_period ≤ i + 2)
    (hn : i < n) :
    adaptive_threshold cfg (flat_series n p v t0 dt) i = some cfg.volume_threshold := by
  unfold adaptive_threshold
  rw [flat_vol_ma cfg n p v t0 dt i hL2 hdeep hn,
    flat_volume_sma cfg n p v t0 dt i (by omega) (by omega) hn]
  simp [qdiv, hv]

/-- On a flat series with positive volume the volume ratio, where the
SMA exists, is exactly 1. -/
theorem flat_ratio (cfg : Config) (n : ℕ) (p v : ℚ) (t0 dt : ℤ) (i : ℕ)
    (hv : v ≠ 0) (hL1 : 1 ≤ cfg.lookback_period) (hLi : cfg.lookback_period ≤ i + 1)
    (hn : i < n) :
    volume_ratio cfg (flat_series n p v t0 dt) i = some 1 := by
  unfold volume_ratio
  rw [flat_volume_sma cfg n p v t0 dt i hL1 hLi hn]
  rw [flat_volumeAt n p v t0 dt i hn]
  simp [qdiv, hv]

/-- The volume analyzer emits no signal on a flat candle series of any
length: either no bar is a spike, or (for a sub-1 base threshold) the
zero-volatility noise filter rejects the spike. -/
theorem flat_volume_analyze (cfg : Config) (n : ℕ) (p v : ℚ) (t0 dt : ℤ) (hv : 0 ≤ v) :
    volume_analyze cfg (flat_series n p v t0 dt) = [] := by
  unfold volume_analyze
  split_ifs with hlen
  · rfl
  · unfold detect_volume_signals
    rw [List.filterMap_eq_nil_iff]
    intro i hi
    have hn : i < n := by
      have := List.mem_range.1 hi
      rwa [flat_length] at this
    by_cases hLi : cfg.lookback_period ≤ i
    · by_cases hsp : volume_spike cfg (flat_series n p v t0 dt) i = true
      · -- a spike is only possible when the threshold is defined: the
        -- base is below 1, the volume positive, the window deep enough;
        -- then the zero-volatility filter rejects the confirmation.
        have hL1 : 1 ≤ cfg.lookback_period := by
          by_contra hL0
          have h0 : cfg.lookback_period = 0 := by omega
          unfold volume_spike volume_ratio volume_sma at hsp
          rw [if_neg (by omega)] at hsp
          simp [oGT] at hsp
        have hvne : v ≠ 0 := by
          intro hv0
          subst hv0
          have hr : volume_ratio cfg (flat_series n p 0 t0 dt) i = none := by
            unfold volume_ratio
            rw [flat_volume_sma cfg n p 0 t0 dt i hL1 (by omega) hn,
              flat_volumeAt n p 0 t0 dt i hn]
            simp [qdiv]
          unfold volume_spike at hsp
          rw [hr] at hsp
          simp [oGT] at hsp
        have hdeep : 2 ≤ cfg.lookback_period ∧ 2 * cfg.lookback_period ≤ i + 2 := by
          by_contra hnd
          unfold volume_spike at hsp
          have hvma : vol_volatility_ma cfg (flat_series n p v t0 dt) i = none := by
            unfold vol_volatility_ma
            rw [if_pos ⟨hL1, by omega, by rw [flat_length]; exact hn⟩]
            unfold rwinFO
            have hL1' : cfg.lookback_period = (cfg.lookback_period - 1) + 1 := by omega
            rw [hL1', List.range_succ_eq_map, List.map_cons]
            have hhead : volume_volatility cfg (flat_series n p v t0 dt)
                (i + 1 - ((cfg.lookback_period - 1) + 1) + 0) = none := by
              unfold volume_volatility volume_var
              rw [if_neg (by omega)]
              rfl
            rw [hhead]
            rfl
          have hthr : adaptive_threshold cfg (flat_series n p v t0 dt) i = none := by
            unfold adaptive_threshold
            rw [hvma]
            rfl
          rw [hthr] at hsp
          unfold oGT at hsp
          rcases volume_ratio cfg (flat_series n p v t0 dt) i with _ | q <;> simp at hsp
        rw [if_pos ⟨hLi, hsp⟩]
        have hconf : (check_volume_confirmation cfg (flat_series n p v t0 dt) i).1 = false := by
          have hnoisy : stdLT (volume_var cfg (flat_series n p v t0 dt) i)
              ((volume_sma cfg (flat_series n p v t0 dt) i).getD 0 * (1 / 10)) = true := by
            rw [flat_volume_var cfg n p v t0 dt i hdeep.1 (by omega) hn,
              flat_volume_sma cfg n p v t0 dt i hL1 (by omega) hn]
            unfold stdLT
            rw [decide_eq_true_eq]
            have hvpos : 0 < v := lt_of_le_of_ne hv (Ne.symm hvne)
            constructor
            · positivity
            · positivity
          unfold check_volume_confirmation
          rw [hnoisy]
          simp
        dsimp only
        rw [hconf]
        simp
      · rw [if_neg]
        intro hcontra
        exact hsp (by simpa using hcontra.2)
    · rw [if_neg]
      intro hcontra
      exact hLi hcontra.1

/-- NaN on the left of a pandas `>` comparison is false. -/
theorem oGT_none_left (b : Option ℚ) : oGT none b = false := rfl

/-- NaN on the right of a pandas `>` comparison is false. -/
theorem oGT_none_right (a : Option ℚ) : oGT a none = false := by cases a <;> rfl

/-- Both sides present: `>` is the rational comparison. -/
theorem oGT_some_some (a b : ℚ) : oGT (some a) (some b) = decide (b < a) := rfl

/-- NaN on the left of a pandas `≥` comparison is false. -/
theorem oGE_none_left (b : Option ℚ) : oGE none b = false := rfl

/-- On a flat series price_change_pct is NaN (zero open) or 0. -/
theorem flat_pcp (n : ℕ) (p v : ℚ) (t0 dt : ℤ) (i : ℕ) (hn : i < n) :
    price_change_pct (flat_series n p v t0 dt) i = none ∨
    price_change_pct (flat_series n p v t0 dt) i = some 0 := by
  unfold price_change_pct
  rw [flat_closeAt n p v t0 dt i hn, flat_openAt n p v t0 dt i hn]
  by_cases hp : p = 0
  · left; simp [qdiv, hp]
  · right; simp [qdiv, hp]

/-- On a flat series trend_short is NaN or 0. -/
theorem flat_trend_short (cfg : Config) (n : ℕ) (p v : ℚ) (t0 dt : ℤ) (i : ℕ)
    (hn : i < n) :
    trend_short cfg (flat_series n p v t0 dt) i = none ∨
    trend_short cfg (flat_series n p v t0 dt) i = some 0 := by
  unfold trend_short sma_short
  split_ifs with hg
  · right
    rw [rwinF_const (closeAt (flat_series n p v t0 dt)) p cfg.short_period i
      (fun j hj => flat_closeAt n p v t0 dt j (by omega)) hg.2.1]
    rw [listMean_replicate _ _ hg.1, flat_closeAt n p v t0 dt i hn]
    simp
  · left; rfl

/-- On a flat series trend_long is NaN or 0. -/
theorem flat_trend_long (cfg : Config) (n : ℕ) (p v : ℚ) (t0 dt : ℤ) (i : ℕ)
    (hn : i < n) :
    trend_long cfg (flat_series n p v t0 dt) i = none ∨
    trend_long cfg (flat_series n p v t0 dt) i = some 0 := by
  unfold trend_long sma_long
  split_ifs with hg
  · right
    rw [rwinF_const (closeAt (flat_series n p v t0 dt)) p cfg.long_period i
      (fun j hj => flat_closeAt n p v t0 dt j (by omega)) hg.2.1]
    rw [listMean_replicate _ _ hg.1, flat_closeAt n p v t0 dt i hn]
    simp
  · left; rfl

/-- On a flat series momentum is NaN (shift guard or zero close) or 0. -/
theorem flat_momentum (cfg : Config) (n : ℕ) (p v : ℚ) (t0 dt : ℤ) (i : ℕ)
    (hn : i < n) :
    price_momentum cfg (flat_series n p v t0 dt) i = none ∨
    price_momentum cfg (flat_series n p v t0 dt) i = some 0 := by
  unfold price_momentum
  split_ifs with hg
  · left; rfl
  · rw [flat_closeAt n p v t0 dt i hn,
      flat_closeAt n p v t0 dt (i - cfg.momentum_period) (by omega)]
    by_cases hp : p = 0
    · left; simp [qdiv, hp]
    · right; simp [qdiv, hp, div_self]

/-- On a flat series there is never a downward breakout: close equals the
rolling support wherever the latter exists. -/
theorem flat_breakout_down (cfg : Config) (n : ℕ) (p v : ℚ) (t0 dt : ℤ) (i : ℕ)
    (hn : i < n) :
    breakout_down cfg (flat_series n p v t0 dt) i = false := by
  unfold breakout_down
  split_ifs with h0
  · rfl
  · rw [flat_closeAt n p v t0 dt i hn]
    unfold support
    split_ifs with hg
    · rw [rwinF_const (lowAt (flat_series n p v t0 dt)) p cfg.long_period (i - 1)
        (fun j hj => flat_lowAt n p v t0 dt j (by omega)) hg.2.1]
      rw [listMin_replicate _ _ hg.1]
      unfold oLT
      rw [oGT_some_some]
      simp
    · unfold oLT
      rw [oGT_none_left]

/-- On a flat series price_position is NaN: resistance equals support, so
the denominator is zero. -/
theorem flat_price_position (cfg : Config) (n : ℕ) (p v : ℚ) (t0 dt : ℤ) (i : ℕ)
    (hn : i < n) :
    price_position cfg (flat_series n p v t0 dt) i = none := by
  unfold price_position resistance support
  split_ifs with hg
  · rw [rwinF_const (highAt (flat_series n p v t0 dt)) p cfg.long_period i
      (fun j hj => flat_highAt n p v t0 dt j (by omega)) hg.2.1]
    rw [rwinF_const (lowAt (flat_series n p v t0 dt)) p cfg.long_period i
      (fun j hj => flat_lowAt n p v t0 dt j (by omega)) hg.2.1]
    rw [listMax_replicate _ _ hg.1, listMin_replicate _ _ hg.1]
    simp [qdiv]
  · rfl

/-- The price movement analysis never fires on a flat series: the price
change is 0 or NaN, every trend/momentum/breakout/position bonus fails,
so the strength score cannot exceed 0.3. -/
theorem flat_price_strength (cfg : Config) (n : ℕ) (p v : ℚ) (t0 dt : ℤ) (i : ℕ)
    (hn : i < n) :
    (analyze_price_movement cfg (flat_series n p v t0 dt) i).1 = false := by
  simp only [analyze_price_movement]
  cases hlv : stdLT (price_volatility_var cfg (flat_series n p v t0 dt) i) (1 / 100) <;>
    rcases flat_pcp n p v t0 dt i hn with h1 | h1 <;> rw [h1] <;>
    rcases flat_trend_short cfg n p v t0 dt i hn with h2 | h2 <;> rw [h2] <;>
    rcases flat_trend_long cfg n p v t0 dt i hn with h3 | h3 <;> rw [h3] <;>
    rcases flat_momentum cfg n p v t0 dt i hn with h4 | h4 <;> rw [h4] <;>
    rw [flat_breakout_down cfg n p v t0 dt i hn,
      flat_price_position cfg n p v t0 dt i hn] <;>
    simp [oGT_none_left, oGT_none_right, oGT_some_some, oLT] <;>
    norm_num

/-- The price analyzer emits no signal on a flat candle series of any
length: every bar either fails the candidate gate (zero or NaN change) or
fails the strength analysis. -/
theorem flat_price_analyze (cfg : Config) (n : ℕ) (p v : ℚ) (t0 dt : ℤ) :
    price_analyze cfg (flat_series n p v t0 dt) = [] := by
  unfold price_analyze
  split_ifs with hlen
  · rfl
  · unfold detect_price_signals
    rw [List.filterMap_eq_nil_iff]
    intro i hi
    have hn : i < n := by
      have := List.mem_range.1 hi
      rwa [flat_length] at this
    by_cases hc : cfg.long_period ≤ i ∧ price_candidate cfg (flat_series n p v t0 dt) i
    · rw [if_pos hc]
      dsimp only
      rw [flat_price_strength cfg n p v t0 dt i hn]
      simp
    · rw [if_neg hc]

/-- C6 counterexample: eight candles — fewer than lookback_period + 1 = 21
— on which the price analyzer, whose guard uses its own long_period (5),
still emits a signal, contradicting "each signal detector returns an empty
signal list" for series shorter than lookback_period + 1. -/
theorem claim_C6_counterexample :
    c6Candles.length < c6Cfg.lookback_period + 1 ∧
    price_analyze c6Cfg c6Candles ≠ [] := by
  constructor
  · with_unfolding_all decide
  · with_unfolding_all decide

/-- C6 (amended): the volume analyzer returns an empty signal list for any
series shorter than lookback_period + 1, while the price analyzer's guard
uses its own long_period + 1; the whole run on a series shorter than the
run-level lookback_period + 1 still completes with success = true, no
trades, all-zero statistics and final_capital = initial_capital; and on an
all-flat series (constant price and nonnegative constant volume) of any
length both detectors are empty and the run returns the same empty result. -/
theorem claim_C6 :
    (∀ (cfg : Config) (candles : List Candle),
      candles.length < cfg.lookback_period + 1 → volume_analyze cfg candles = []) ∧
    (∀ (cfg : Config) (candles : List Candle),
      candles.length < cfg.long_period + 1 → price_analyze cfg candles = []) ∧
    (∀ (cfg : Config) (candles : List Candle) (params : Params) (clock : ℕ → ℤ),
      candles.length < params.lookback_period + 1 →
      run_backtest cfg candles params clock =
        { trades := [], statistics := zeroStats,
          final_capital := params.initial_capital, success := true,
          error_message := some "No signals detected" }) ∧
    (∀ (cfg : Config) (n : ℕ) (p v : ℚ) (t0 dt : ℤ) (params : Params) (clock : ℕ → ℤ),
      0 ≤ v →
      volume_analyze cfg (flat_series n p v t0 dt) = [] ∧
      price_analyze cfg (flat_series n p v t0 dt) = [] ∧
      run_backtest cfg (flat_series n p v t0 dt) params clock =
        { trades := [], statistics := zeroStats,
          final_capital := params.initial_capital, success := true,
          error_message := some "No signals detected" }) := by
  have hcs : ∀ c : ℚ, calc_statistics [] c = zeroStats := by
    intro c
    unfold calc_statistics
    rw [if_pos rfl]
  have hrun : ∀ (cfg : Config) (candles : List Candle) (params : Params) (clock : ℕ → ℤ),
      detect_signals_all cfg candles params = [] →
      run_backtest cfg candles params clock =
        { trades := [], statistics := zeroStats,
          final_capital := params.initial_capital, success := true,
          error_message := some "No signals detected" } := by
    intro cfg candles params clock hs
    unfold run_backtest
    rw [hs]
    rw [if_pos rfl]
    rw [hcs]
  refine ⟨?_, ?_, ?_, ?_⟩
  · intro cfg candles h
    unfold volume_analyze
    rw [if_pos h]
  · intro cfg candles h
    unfold price_analyze
    rw [if_pos h]
  · intro cfg candles params clock h
    apply hrun
    unfold detect_signals_all
    rw [if_pos h]
  · intro cfg n p v t0 dt params clock hv
    refine ⟨flat_volume_analyze cfg n p v t0 dt hv, flat_price_analyze cfg n p v t0 dt, ?_⟩
    apply hrun
    unfold detect_signals_all
    split_ifs with hlen
    · rfl
    · rw [flat_volume_analyze cfg n p v t0 dt hv, flat_price_analyze cfg n p v t0 dt]
      unfold combine_signals
      rw [if_pos ⟨rfl, rfl⟩]
      rfl

/-- C6 witness: the amended theorem applied at concrete inputs — the
8-candle series under lookback 20, a price analyzer with long_period 20,
a short-series run, and a 25-bar flat series. -/
theorem claim_C6_witness :
    volume_analyze c6Cfg c6Candles = [] ∧
    price_analyze { long_period := 20 } c6Candles = [] ∧
    run_backtest c6Cfg c6Candles c5ParamsWide (fun _ => 0) =
      { trades := [], statistics := zeroStats, final_capital := 10000,
        success := true, error_message := some "No signals detected" } ∧
    volume_analyze c6Cfg (flat_series 25 100 10 0 60) = [] := by
  refine ⟨?_, ?_, ?_, ?_⟩
  · exact claim_C6.1 c6Cfg c6Candles (by with_unfolding_all decide)
  · exact claim_C6.2.1 { long_period := 20 } c6Candles (by with_unfolding_all decide)
  · exact claim_C6.2.2.1 c6Cfg c6Candles c5ParamsWide (fun _ => 0) (by with_unfolding_all decide)
  · exact (claim_C6.2.2.2 c6Cfg 25 100 10 0 60 c5ParamsWide (fun _ => 0) (by norm_num)).1

end Algotest
